import Mathlib

/-!
# breadboard: math and animation node modules

A shallow embedding of `src/modules/math.cpp` and
`module_library/src/module_library/animation.cpp`.

The node classes of the two files are translated function by function.  The
engine classes they are written against (`NodeSignature`, `NodeArguments`,
`ModuleRegistry`, the entity and component types) are declared in headers that
are not part of the sources; they are modelled from the specification and
every such definition says so in its doc comment.
-/

namespace fpl.entity

/-- Modelled from the spec: `fpl::entity::EntityRef`, an entity handle.  Domain
invalidity is data: the handle is either the `invalid` sentinel or names a
live entity. -/
inductive EntityRef where
  | invalid
  | entity (id : Nat)
  deriving DecidableEq, Repr

/-- Modelled from the spec: `EntityRef::IsValid`, also the handle's conversion
to `bool` used by `if (entity)`. -/
def EntityRef.IsValid : EntityRef → Bool
  | .invalid => false
  | .entity _ => true

end fpl.entity

namespace breadboard

open fpl.entity

/-! ## Engine data model -/

/-- Modelled from the spec: the `TypeTag` of section 3, a comparable identifier
for a value type (integer, float, boolean, entity handle, void/trigger). -/
inductive TypeTag where
  | void
  | bool
  | int
  | float
  | entityRef
  deriving DecidableEq, Repr

/-- Modelled from the spec: event identifiers naming a listener declaration.
`kAnimationCompleteEventId` is the constant of `component_library`. -/
inductive EventId where
  | kAnimationCompleteEventId
  | other (n : Nat)
  deriving DecidableEq, Repr

/-- Modelled from the spec: a value held by a port slot.  Floating point values
are outside the embedding, so no slot value carries the `float` tag. -/
inductive Value where
  | void
  | bool (b : Bool)
  | int (v : Int)
  | entityRef (e : EntityRef)
  deriving DecidableEq, Repr

/-- Modelled from the spec: the failures of the runtime taxonomy (section 7) that
registration, lookup and port access can end in, plus the faults of the node
code itself (a failed `assert`, a native operator without a result such as
integer division by zero) and two violations of engine invariants that the
taxonomy does not name (a port index that was never declared, a slot whose
content is not of the declared type). -/
inductive Fault where
  | DuplicateModule
  | DuplicateNodeKind
  | NotFound
  | TypeMismatch
  | UnboundInput
  | IndexOutOfRange
  | IllTypedSlot
  | AssertionFailed
  | NativeOperatorFault
  deriving DecidableEq, Repr

/-- Modelled from the spec: `NodeSignature`, the ordered input ports, output
ports and listener declarations of a node kind. -/
structure NodeSignature where
  inputs : List TypeTag := []
  outputs : List TypeTag := []
  listeners : List EventId := []
  deriving DecidableEq, Repr

/-- Modelled from the spec: `NodeSignature::AddInput<T>()`. -/
def NodeSignature.AddInput (node_sig : NodeSignature) (T : TypeTag) : NodeSignature :=
  { node_sig with inputs := node_sig.inputs ++ [T] }

/-- Modelled from the spec: `NodeSignature::AddOutput<T>()`. -/
def NodeSignature.AddOutput (node_sig : NodeSignature) (T : TypeTag) : NodeSignature :=
  { node_sig with outputs := node_sig.outputs ++ [T] }

/-- Modelled from the spec: `NodeSignature::AddListener(event_id)`. -/
def NodeSignature.AddListener (node_sig : NodeSignature) (event_id : EventId) : NodeSignature :=
  { node_sig with listeners := node_sig.listeners ++ [event_id] }

/-- Modelled from the spec: a C++ type usable as a port type: its tag and how a
value of the type is stored in and read back from a slot. -/
class PortType (α : Type) where
  tag : TypeTag
  toValue : α → Value
  ofValue : Value → Option α

instance : PortType Int where
  tag := .int
  toValue := Value.int
  ofValue := fun v => match v with
    | .int x => some x
    | _ => none

instance : PortType Bool where
  tag := .bool
  toValue := Value.bool
  ofValue := fun v => match v with
    | .bool x => some x
    | _ => none

instance : PortType EntityRef where
  tag := .entityRef
  toValue := Value.entityRef
  ofValue := fun v => match v with
    | .entityRef x => some x
    | _ => none

instance : PortType Unit where
  tag := .void
  toValue := fun _ => Value.void
  ofValue := fun v => match v with
    | .void => some ()
    | _ => none

/-- Modelled from the spec: the per-listener state of a node instance: the
broadcaster it is bound to (broadcasters are keyed by entity) and its dirty
flag, "per-listener state indicating its broadcaster fired since last
clear". -/
structure Listener where
  binding : Option EntityRef := none
  dirty : Bool := false
  deriving DecidableEq, Repr

/-- Modelled from the spec: `NodeArguments`, the facade over one node instance:
the kind's signature, the current value on each input port (`none` when the
port has no producing edge and no default), the value slot of each output
port, the listeners, and the output writes made since the last settle. -/
structure NodeArguments where
  sig : NodeSignature
  inputs : Nat → Option Value
  outputs : Nat → Option Value
  listeners : Nat → Listener
  writes : List (Nat × Value)

/-- Modelled from the spec: storing a value into an output slot and recording
the write. -/
def NodeArguments.store (args : NodeArguments) (index : Nat) (v : Value) : NodeArguments :=
  { args with
    outputs := Function.update args.outputs index (some v)
    writes := args.writes ++ [(index, v)] }

/-- Modelled from the spec: `NodeArguments::GetInput<T>(index)`; "fails with
`TypeMismatch` if T does not match the declared port type, and with
`UnboundInput` if the port has no producing edge and no default". -/
def NodeArguments.GetInput (args : NodeArguments) (α : Type) [PortType α] (index : Nat) :
    Except Fault α :=
  match args.sig.inputs[index]? with
  | none => .error .IndexOutOfRange
  | some t =>
    if t ≠ PortType.tag α then .error .TypeMismatch
    else
      match args.inputs index with
      | none => .error .UnboundInput
      | some v =>
        match PortType.ofValue v with
        | none => .error .IllTypedSlot
        | some a => .ok a

/-- Modelled from the spec: `NodeArguments::SetOutput(index, value)`; stores the
value into output slot `index`, whose declared type must be that of the
value. -/
def NodeArguments.SetOutput {α : Type} [PortType α] (args : NodeArguments) (index : Nat)
    (value : α) : Except Fault NodeArguments :=
  match args.sig.outputs[index]? with
  | none => .error .IndexOutOfRange
  | some t =>
    if t ≠ PortType.tag α then .error .TypeMismatch
    else .ok (args.store index (PortType.toValue value))

/-- Modelled from the spec: `NodeArguments::BindBroadcaster(index, broadcaster)`;
"associates listener i with the broadcaster identified by handle; releases any
prior association for that listener". -/
def NodeArguments.BindBroadcaster (args : NodeArguments) (index : Nat)
    (broadcaster : EntityRef) : Except Fault NodeArguments :=
  match args.sig.listeners[index]? with
  | none => .error .IndexOutOfRange
  | some _ =>
    .ok { args with
          listeners := Function.update args.listeners index
            { args.listeners index with binding := some broadcaster } }

/-- Modelled from the spec: `NodeArguments::IsListenerDirty(index)`; reading the
flag does not clear it. -/
def NodeArguments.IsListenerDirty (args : NodeArguments) (index : Nat) : Except Fault Bool :=
  match args.sig.listeners[index]? with
  | none => .error .IndexOutOfRange
  | some _ => .ok (args.listeners index).dirty

/-! ## Native operators of the operand type -/

/-- Wrap-around of a mathematical integer into the range of a 32-bit `int`. -/
def wrapInt (x : Int) : Int := (x + 2 ^ 31) % 2 ^ 32 - 2 ^ 31

/-- The mathematical integer `x` is representable as a 32-bit `int`. -/
def fitsInt (x : Int) : Prop := -(2 ^ 31) ≤ x ∧ x ≤ 2 ^ 31 - 1

instance (x : Int) : Decidable (fitsInt x) := by
  unfold fitsInt
  infer_instance

/-- The native operators of the type `T` the math templates are instantiated at:
what `a op b` computes for each `op` handed to the two generating
instructions.  An arithmetic operator yields `none` where the language gives
it no result (integer division by zero). -/
class NativeOps (α : Type) where
  eq : α → α → Bool
  ne : α → α → Bool
  gt : α → α → Bool
  ge : α → α → Bool
  lt : α → α → Bool
  le : α → α → Bool
  add : α → α → Option α
  sub : α → α → Option α
  mul : α → α → Option α
  div : α → α → Option α

/-- The operators of C++ `int`: comparisons are the integer relations, `+ - *`
are exact up to 32-bit wrap-around, `/` truncates toward zero and has no result
on a zero divisor. -/
instance : NativeOps Int where
  eq := fun a b => decide (a = b)
  ne := fun a b => decide (a ≠ b)
  gt := fun a b => decide (a > b)
  ge := fun a b => decide (a ≥ b)
  lt := fun a b => decide (a < b)
  le := fun a b => decide (a ≤ b)
  add := fun a b => some (wrapInt (a + b))
  sub := fun a b => some (wrapInt (a - b))
  mul := fun a b => some (wrapInt (a * b))
  div := fun a b => if b = 0 then none else some (wrapInt (Int.tdiv a b))

/-- Evaluation of a native arithmetic operator inside a node: where the operator
has no result the tick faults; the runtime substitutes no value ("the operator
node family inherits the target numeric type's native semantics"). -/
def native {α : Type} (result : Option α) : Except Fault α :=
  match result with
  | none => .error .NativeOperatorFault
  | some r => .ok r

/-- The standard library's `std::max(a, b)` of `<algorithm>`: `(a < b) ? b : a`. -/
def std.max {α : Type} [NativeOps α] (a b : α) : α :=
  if NativeOps.lt a b then b else a

/-- The standard library's `std::min(a, b)` of `<algorithm>`: `(b < a) ? b : a`. -/
def std.min {α : Type} [NativeOps α] (a b : α) : α :=
  if NativeOps.lt b a then b else a

/-! ## `math.cpp` -/

namespace COMPARISON_NODE

/-- The `OnRegister` of `COMPARISON_NODE(name, op)`. -/
def OnRegister (T : TypeTag) (node_sig : NodeSignature) : NodeSignature :=
  ((node_sig.AddInput T).AddInput T).AddOutput .bool

/-- The `Initialize` of `COMPARISON_NODE(name, op)`. -/
def Initialize {α : Type} [PortType α] (op : α → α → Bool) (args : NodeArguments) :
    Except Fault NodeArguments := do
  let a ← args.GetInput α 0
  let b ← args.GetInput α 1
  let result : Bool := op a b
  args.SetOutput 0 result

/-- The `Execute` of `COMPARISON_NODE(name, op)`. -/
def Execute {α : Type} [PortType α] (op : α → α → Bool) (args : NodeArguments) :
    Except Fault NodeArguments :=
  Initialize op args

end COMPARISON_NODE

namespace ARITHMETIC_NODE

/-- The `OnRegister` of `ARITHMETIC_NODE(name, op)`. -/
def OnRegister (T : TypeTag) (node_sig : NodeSignature) : NodeSignature :=
  ((node_sig.AddInput T).AddInput T).AddOutput T

/-- The `Initialize` of `ARITHMETIC_NODE(name, op)`. -/
def Initialize {α : Type} [PortType α] (op : α → α → Option α) (args : NodeArguments) :
    Except Fault NodeArguments := do
  let a ← args.GetInput α 0
  let b ← args.GetInput α 1
  let result : α ← native (op a b)
  args.SetOutput 0 result

/-- The `Execute` of `ARITHMETIC_NODE(name, op)`. -/
def Execute {α : Type} [PortType α] (op : α → α → Option α) (args : NodeArguments) :
    Except Fault NodeArguments :=
  Initialize op args

end ARITHMETIC_NODE

/-- The ten classes generated by `COMPARISON_NODE(name, op)` and
`ARITHMETIC_NODE(name, op)`. -/
inductive OperatorNode where
  | EqualsNode
  | NotEqualsNode
  | GreaterThanNode
  | GreaterThanOrEqualsNode
  | LessThanNode
  | LessThanOrEqualsNode
  | AddNode
  | SubtractNode
  | MultiplyNode
  | DivideNode
  deriving DecidableEq, Repr

namespace OperatorNode

/-- The `OnRegister` of each generated class, by the generating instruction. -/
def OnRegister (T : TypeTag) : OperatorNode → NodeSignature → NodeSignature
  | EqualsNode => COMPARISON_NODE.OnRegister T
  | NotEqualsNode => COMPARISON_NODE.OnRegister T
  | GreaterThanNode => COMPARISON_NODE.OnRegister T
  | GreaterThanOrEqualsNode => COMPARISON_NODE.OnRegister T
  | LessThanNode => COMPARISON_NODE.OnRegister T
  | LessThanOrEqualsNode => COMPARISON_NODE.OnRegister T
  | AddNode => ARITHMETIC_NODE.OnRegister T
  | SubtractNode => ARITHMETIC_NODE.OnRegister T
  | MultiplyNode => ARITHMETIC_NODE.OnRegister T
  | DivideNode => ARITHMETIC_NODE.OnRegister T

/-- The `Initialize` of each generated class: `COMPARISON_NODE(EqualsNode, ==)`
through `ARITHMETIC_NODE(DivideNode, /)`. -/
def Initialize (α : Type) [PortType α] [NativeOps α] :
    OperatorNode → NodeArguments → Except Fault NodeArguments
  | EqualsNode => COMPARISON_NODE.Initialize (α := α) NativeOps.eq
  | NotEqualsNode => COMPARISON_NODE.Initialize (α := α) NativeOps.ne
  | GreaterThanNode => COMPARISON_NODE.Initialize (α := α) NativeOps.gt
  | GreaterThanOrEqualsNode => COMPARISON_NODE.Initialize (α := α) NativeOps.ge
  | LessThanNode => COMPARISON_NODE.Initialize (α := α) NativeOps.lt
  | LessThanOrEqualsNode => COMPARISON_NODE.Initialize (α := α) NativeOps.le
  | AddNode => ARITHMETIC_NODE.Initialize (α := α) NativeOps.add
  | SubtractNode => ARITHMETIC_NODE.Initialize (α := α) NativeOps.sub
  | MultiplyNode => ARITHMETIC_NODE.Initialize (α := α) NativeOps.mul
  | DivideNode => ARITHMETIC_NODE.Initialize (α := α) NativeOps.div

/-- The `Execute` of each generated class. -/
def Execute (α : Type) [PortType α] [NativeOps α] :
    OperatorNode → NodeArguments → Except Fault NodeArguments
  | EqualsNode => COMPARISON_NODE.Execute (α := α) NativeOps.eq
  | NotEqualsNode => COMPARISON_NODE.Execute (α := α) NativeOps.ne
  | GreaterThanNode => COMPARISON_NODE.Execute (α := α) NativeOps.gt
  | GreaterThanOrEqualsNode => COMPARISON_NODE.Execute (α := α) NativeOps.ge
  | LessThanNode => COMPARISON_NODE.Execute (α := α) NativeOps.lt
  | LessThanOrEqualsNode => COMPARISON_NODE.Execute (α := α) NativeOps.le
  | AddNode => ARITHMETIC_NODE.Execute (α := α) NativeOps.add
  | SubtractNode => ARITHMETIC_NODE.Execute (α := α) NativeOps.sub
  | MultiplyNode => ARITHMETIC_NODE.Execute (α := α) NativeOps.mul
  | DivideNode => ARITHMETIC_NODE.Execute (α := α) NativeOps.div

end OperatorNode

namespace MaxNode

/-- The `MaxNode<T>::OnRegister`. -/
def OnRegister (T : TypeTag) (node_sig : NodeSignature) : NodeSignature :=
  ((node_sig.AddInput T).AddInput T).AddOutput T

/-- The `MaxNode<T>::Execute`. -/
def Execute (α : Type) [PortType α] [NativeOps α] (args : NodeArguments) :
    Except Fault NodeArguments := do
  let a ← args.GetInput α 0
  let b ← args.GetInput α 1
  args.SetOutput 0 (std.max a b)

end MaxNode

namespace MinNode

/-- The `MinNode<T>::OnRegister`. -/
def OnRegister (T : TypeTag) (node_sig : NodeSignature) : NodeSignature :=
  ((node_sig.AddInput T).AddInput T).AddOutput T

/-- The `MinNode<T>::Execute`. -/
def Execute (α : Type) [PortType α] [NativeOps α] (args : NodeArguments) :
    Except Fault NodeArguments := do
  let a ← args.GetInput α 0
  let b ← args.GetInput α 1
  args.SetOutput 0 (std.min a b)

end MinNode

/-- The node classes of the two modules, standing for their constructors. -/
inductive NodeClass where
  | op (node : OperatorNode) (T : TypeTag)
  | MaxNode (T : TypeTag)
  | MinNode (T : TypeTag)
  | AnimationCompleteNode
  | PlayAnimationNode
  deriving DecidableEq, Repr

/-! ## Module registry -/

/-- Modelled from the spec: `Module`, "a name plus a mapping from node-kind name
to (factory function, NodeSignature)"; the factory is represented by the class
it constructs. -/
structure Module where
  name : String
  nodes : List (String × NodeClass × NodeSignature) := []
  deriving DecidableEq, Repr

/-- Modelled from the spec: `ModuleRegistry`, the mapping from module name to
`Module`. -/
structure ModuleRegistry where
  modules : List Module := []
  deriving DecidableEq, Repr

/-- Modelled from the spec: `ModuleRegistry::RegisterModule(name)`; "fails with
`DuplicateModule` if name already present".  Returns the registry holding the
new module, and the new module. -/
def ModuleRegistry.RegisterModule (module_registry : ModuleRegistry) (name : String) :
    Except Fault (ModuleRegistry × Module) :=
  if module_registry.modules.any (fun m => m.name = name) then .error .DuplicateModule
  else .ok ({ modules := module_registry.modules ++ [{ name := name }] }, { name := name })

/-- Modelled from the spec: the registry after the module reached through the
pointer returned by `RegisterModule` has been changed in place. -/
def ModuleRegistry.commit (module_registry : ModuleRegistry) (mod : Module) : ModuleRegistry :=
  { modules := module_registry.modules.map (fun m => if m.name = mod.name then mod else m) }

/-- Modelled from the spec: `Module::RegisterNode<Kind>(name[, constructor])`;
"captures the kind's `OnRegister` output as its NodeSignature and stores
(factory, signature); fails with `DuplicateNodeKind` if name already present
in that module".  `signature` is the kind's `OnRegister` applied to a fresh
signature. -/
def Module.RegisterNode (mod : Module) (Kind : NodeClass) (signature : NodeSignature)
    (name : String) : Except Fault Module :=
  if mod.nodes.any (fun n => n.1 = name) then .error .DuplicateNodeKind
  else .ok { mod with nodes := mod.nodes ++ [(name, Kind, signature)] }

/-- Modelled from the spec: `ModuleRegistry::LookupNodeKind(module, kind) ->
(factory, signature) | NotFound`. -/
def ModuleRegistry.LookupNodeKind (module_registry : ModuleRegistry) (module_name kind : String) :
    Except Fault (NodeClass × NodeSignature) :=
  match module_registry.modules.find? (fun m => m.name = module_name) with
  | none => .error .NotFound
  | some m =>
    match m.nodes.find? (fun n => n.1 = kind) with
    | none => .error .NotFound
    | some n => .ok n.2

/-- The `InitializeMathModuleType<T>(module_registry, name)`. -/
def InitializeMathModuleType (T : TypeTag) (module_registry : ModuleRegistry) (name : String) :
    Except Fault ModuleRegistry := do
  let (module_registry, mod) ← module_registry.RegisterModule name
  let mod ← mod.RegisterNode (.op .EqualsNode T) (OperatorNode.OnRegister T .EqualsNode {}) "equals"
  let mod ← mod.RegisterNode (.op .NotEqualsNode T)
    (OperatorNode.OnRegister T .NotEqualsNode {}) "not_equals"
  let mod ← mod.RegisterNode (.op .GreaterThanNode T)
    (OperatorNode.OnRegister T .GreaterThanNode {}) "greater_than"
  let mod ← mod.RegisterNode (.op .GreaterThanOrEqualsNode T)
    (OperatorNode.OnRegister T .GreaterThanOrEqualsNode {}) "greater_than_or_equals"
  let mod ← mod.RegisterNode (.op .LessThanNode T)
    (OperatorNode.OnRegister T .LessThanNode {}) "less_than"
  let mod ← mod.RegisterNode (.op .LessThanOrEqualsNode T)
    (OperatorNode.OnRegister T .LessThanOrEqualsNode {}) "less_than_or_equals"
  let mod ← mod.RegisterNode (.op .AddNode T) (OperatorNode.OnRegister T .AddNode {}) "add"
  let mod ← mod.RegisterNode (.op .SubtractNode T)
    (OperatorNode.OnRegister T .SubtractNode {}) "subtract"
  let mod ← mod.RegisterNode (.op .MultiplyNode T)
    (OperatorNode.OnRegister T .MultiplyNode {}) "multiply"
  let mod ← mod.RegisterNode (.op .DivideNode T) (OperatorNode.OnRegister T .DivideNode {}) "divide"
  let mod ← mod.RegisterNode (.MaxNode T) (MaxNode.OnRegister T {}) "max"
  let mod ← mod.RegisterNode (.MinNode T) (MinNode.OnRegister T {}) "min"
  pure (module_registry.commit mod)

/-- The `InitializeIntegerMathModule(module_registry)`. -/
def InitializeIntegerMathModule (module_registry : ModuleRegistry) : Except Fault ModuleRegistry :=
  InitializeMathModuleType .int module_registry "integer_math"

/-- The `InitializeFloatMathModule(module_registry)`. -/
def InitializeFloatMathModule (module_registry : ModuleRegistry) : Except Fault ModuleRegistry :=
  InitializeMathModuleType .float module_registry "float_math"

end breadboard

namespace fpl.component_library

open fpl.entity breadboard

/-- Modelled from the spec: a broadcaster, "identified by a domain key", holding
the events fired on it since the last settle. -/
structure Broadcaster where
  key : EntityRef
  fired : List EventId := []
  deriving DecidableEq, Repr

/-- Modelled from the spec: `GraphComponent`, the owner of the per-entity
broadcasters. -/
structure GraphComponent where
  broadcasters : List Broadcaster := []
  deriving DecidableEq, Repr

/-- Modelled from the spec: `GraphComponent::GetCreateBroadcaster(entity)`; the
broadcaster of `entity`, "created lazily the first time a node asks to bind".
Returns the component and the handle of the broadcaster (its key). -/
def GraphComponent.GetCreateBroadcaster (graph_component : GraphComponent) (entity : EntityRef) :
    GraphComponent × EntityRef :=
  if graph_component.broadcasters.any (fun b => b.key = entity) then (graph_component, entity)
  else ({ broadcasters := graph_component.broadcasters ++ [{ key := entity }] }, entity)

/-- Modelled from the spec: an operation invoked on the animation subsystem. -/
inductive AnimationCall where
  | AnimateFromTable (entity : EntityRef) (anim_idx : Int)
  | other (name : String)
  deriving DecidableEq, Repr

/-- Modelled from the spec: `AnimationComponent`, the animation subsystem: its
component id and the operations invoked on it so far, oldest first. -/
structure AnimationComponent where
  component_id : Nat
  calls : List AnimationCall := []
  deriving DecidableEq, Repr

/-- Modelled from the spec: `AnimationComponent::GetComponentId()`, the static
accessor of the component's id; it reads a constant and is no operation on the
subsystem. -/
def AnimationComponent.GetComponentId (anim_component : AnimationComponent) : Nat :=
  anim_component.component_id

/-- Modelled from the spec: `AnimationComponent::AnimateFromTable(entity,
anim_idx)`, the "animate from table" operation. -/
def AnimationComponent.AnimateFromTable (anim_component : AnimationComponent)
    (entity : EntityRef) (anim_idx : Int) : AnimationComponent :=
  { anim_component with calls := anim_component.calls ++ [.AnimateFromTable entity anim_idx] }

/-- Modelled from the spec: `TransformComponent`, seen through the one query the
module makes: the child of an entity that holds a given component, or the
invalid handle when there is none. -/
structure TransformComponent where
  ChildWithComponent : EntityRef → Nat → EntityRef

end fpl.component_library

/-! ## `animation.cpp` -/

namespace fpl.module_library

open fpl.entity fpl.component_library breadboard

namespace AnimationCompleteNode

/-- The `AnimationCompleteNode::OnRegister`. -/
def OnRegister (node_sig : NodeSignature) : NodeSignature :=
  ((node_sig.AddInput .entityRef).AddOutput .void).AddListener .kAnimationCompleteEventId

/-- The `AnimationCompleteNode::Initialize`. -/
def Initialize (graph_component_ : GraphComponent) (args : NodeArguments) :
    Except Fault (GraphComponent × NodeArguments) := do
  let entity ← args.GetInput EntityRef 0
  if entity.IsValid then
    let (graph_component_, broadcaster) := graph_component_.GetCreateBroadcaster entity
    let args ← args.BindBroadcaster 0 broadcaster
    pure (graph_component_, args)
  else
    pure (graph_component_, args)

/-- The `AnimationCompleteNode::Execute`. -/
def Execute (graph_component_ : GraphComponent) (args : NodeArguments) :
    Except Fault (GraphComponent × NodeArguments) := do
  let (graph_component_, args) ← Initialize graph_component_ args
  if ← args.IsListenerDirty 0 then
    let args ← args.SetOutput 0 ()
    pure (graph_component_, args)
  else
    pure (graph_component_, args)

end AnimationCompleteNode

namespace PlayAnimationNode

/-- The `PlayAnimationNode::OnRegister`. -/
def OnRegister (node_sig : NodeSignature) : NodeSignature :=
  (((node_sig.AddInput .void).AddInput .entityRef).AddInput .int).AddOutput .void

/-- The `PlayAnimationNode::Execute`; a failed `assert` is the fault
`AssertionFailed`. -/
def Execute (anim_component_ : AnimationComponent) (transform_component_ : TransformComponent)
    (args : NodeArguments) : Except Fault (AnimationComponent × NodeArguments) := do
  let entity ← args.GetInput EntityRef 1
  let anim_entity :=
    transform_component_.ChildWithComponent entity anim_component_.GetComponentId
  if !anim_entity.IsValid then throw Fault.AssertionFailed
  let anim_idx ← args.GetInput Int 2
  pure (anim_component_.AnimateFromTable anim_entity anim_idx, args)

end PlayAnimationNode

/-- The `InitializeAnimationModule(module_registry, graph_component,
anim_component, transform_component)`; the three components are captured by
the two constructors and play no part in the registration, so they are left
out. -/
def InitializeAnimationModule (module_registry : ModuleRegistry) :
    Except Fault ModuleRegistry := do
  let (module_registry, mod) ← module_registry.RegisterModule "animation"
  let mod ← mod.RegisterNode .AnimationCompleteNode (AnimationCompleteNode.OnRegister {})
    "animation_complete"
  let mod ← mod.RegisterNode .PlayAnimationNode (PlayAnimationNode.OnRegister {})
    "play_animation"
  pure (module_registry.commit mod)

/-! ## Broadcaster fabric and executor, for a graph holding one node -/

/-- Modelled from the spec: `Fire(key, eventId)`; marks the broadcaster of `key`
as fired and marks dirty every listener for `eventId` bound to it ("nodes bind
listeners to broadcasters and are marked dirty when the broadcaster
fires"). -/
def Fire (key : EntityRef) (event_id : EventId) (graph_component : GraphComponent)
    (args : NodeArguments) : GraphComponent × NodeArguments :=
  ({ broadcasters := graph_component.broadcasters.map
      (fun b => if b.key = key then { b with fired := b.fired ++ [event_id] } else b) },
   { args with
     listeners := fun i =>
       if (args.listeners i).binding = some key ∧ args.sig.listeners[i]? = some event_id then
         { args.listeners i with dirty := true }
       else args.listeners i })

/-- Modelled from the spec: the Settling step at the end of a tick; clears every
broadcaster's fired state and every listener's dirty flag, and commits the
tick's output writes. -/
def Settle (graph_component : GraphComponent) (args : NodeArguments) :
    GraphComponent × NodeArguments :=
  ({ broadcasters := graph_component.broadcasters.map (fun b => { b with fired := [] }) },
   { args with
     listeners := fun i => { args.listeners i with dirty := false }
     writes := [] })

/-- Modelled from the spec: one tick of the executor over a graph whose only node
is an `AnimationCompleteNode`: the node's `Execute` is invoked exactly once,
then the graph settles.  Returns the output writes the tick made. -/
def Tick (graph_component : GraphComponent) (args : NodeArguments) :
    Except Fault (List (Nat × Value) × GraphComponent × NodeArguments) := do
  let (graph_component, args) ← AnimationCompleteNode.Execute graph_component args
  let (graph_component', args') := Settle graph_component args
  pure (args.writes, graph_component', args')

end fpl.module_library

/-! ## Registration entry points -/

namespace fpl.module_library

open breadboard

/-- The three registration entry points of the two source files. -/
inductive EntryPoint where
  | InitializeIntegerMathModule
  | InitializeFloatMathModule
  | InitializeAnimationModule
  deriving DecidableEq, Repr

/-- Running a registration entry point on a registry. -/
def EntryPoint.run : EntryPoint → ModuleRegistry → Except Fault ModuleRegistry
  | .InitializeIntegerMathModule => breadboard.InitializeIntegerMathModule
  | .InitializeFloatMathModule => breadboard.InitializeFloatMathModule
  | .InitializeAnimationModule => fpl.module_library.InitializeAnimationModule

end fpl.module_library

/-! ## Concrete states -/

namespace breadboard

open fpl.entity

/-- A node state with the given signature, `x` on port 0 and `y` on port 1,
empty output slots and unbound listeners. -/
def twoInputArgs (sig : NodeSignature) (x y : Value) : NodeArguments where
  sig := sig
  inputs := fun i => if i = 0 then some x else if i = 1 then some y else none
  outputs := fun _ => none
  listeners := fun _ => {}
  writes := []

/-- A node state with the given signature, `x` on port 0 and nothing else bound,
empty output slots, and every listener in the state `listener`. -/
def oneInputArgs (sig : NodeSignature) (x : Value) (listener : Listener) : NodeArguments where
  sig := sig
  inputs := fun i => if i = 0 then some x else none
  outputs := fun _ => none
  listeners := fun _ => listener
  writes := []

/-- A node state with the given signature, `x`, `y`, `z` on ports 0, 1, 2, empty
output slots and unbound listeners. -/
def threeInputArgs (sig : NodeSignature) (x y z : Option Value) : NodeArguments where
  sig := sig
  inputs := fun i => if i = 0 then x else if i = 1 then y else if i = 2 then z else none
  outputs := fun _ => none
  listeners := fun _ => {}
  writes := []

end breadboard

/-! # Theorems -/

namespace breadboard

open fpl.entity

/-! ## Operator nodes on `int` -/

theorem wrapInt_of_fitsInt {x : Int} (h : fitsInt x) : wrapInt x = x := by
  unfold fitsInt at h
  unfold wrapInt
  omega

theorem GetInput_int_of_bound (args : NodeArguments) (i : Nat) (v : Int)
    (hdecl : args.sig.inputs[i]? = some TypeTag.int) (hv : args.inputs i = some (Value.int v)) :
    args.GetInput Int i = .ok v := by
  simp [NodeArguments.GetInput, hdecl, hv, PortType.tag, PortType.ofValue]

theorem comparison_on_int (op : Int → Int → Bool) (args : NodeArguments) (a b : Int)
    (hsig : args.sig = COMPARISON_NODE.OnRegister .int {})
    (ha : args.inputs 0 = some (.int a)) (hb : args.inputs 1 = some (.int b)) :
    COMPARISON_NODE.Execute op args = .ok (args.store 0 (.bool (op a b))) := by
  have h0 : args.GetInput Int 0 = .ok a :=
    GetInput_int_of_bound args 0 a (by rw [hsig]; rfl) ha
  have h1 : args.GetInput Int 1 = .ok b :=
    GetInput_int_of_bound args 1 b (by rw [hsig]; rfl) hb
  have ho : args.sig.outputs[0]? = some TypeTag.bool := by rw [hsig]; rfl
  simp [COMPARISON_NODE.Execute, COMPARISON_NODE.Initialize, h0, h1, bind, Except.bind,
    NodeArguments.SetOutput, ho, PortType.tag, PortType.toValue]

theorem arithmetic_on_int (op : Int → Int → Option Int) (args : NodeArguments) (a b : Int)
    (hsig : args.sig = ARITHMETIC_NODE.OnRegister .int {})
    (ha : args.inputs 0 = some (.int a)) (hb : args.inputs 1 = some (.int b)) :
    ARITHMETIC_NODE.Execute op args
      = (native (op a b)).bind (fun r => .ok (args.store 0 (.int r))) := by
  have h0 : args.GetInput Int 0 = .ok a :=
    GetInput_int_of_bound args 0 a (by rw [hsig]; rfl) ha
  have h1 : args.GetInput Int 1 = .ok b :=
    GetInput_int_of_bound args 1 b (by rw [hsig]; rfl) hb
  have ho : args.sig.outputs[0]? = some TypeTag.int := by rw [hsig]; rfl
  simp only [ARITHMETIC_NODE.Execute, ARITHMETIC_NODE.Initialize, h0, h1, bind, Except.bind]
  cases op a b <;>
    simp [native, NodeArguments.SetOutput, ho, PortType.tag, PortType.toValue]

/-- C1: for all `int` inputs `a` on port 0 and `b` on port 1 and every prior node
state, `Execute` of each of the ten generated operator nodes stores into
output 0 the result of the native operator: the integer relations `== != > >=
< <=` for the six comparison nodes; the exact sum, difference and product for
`AddNode`, `SubtractNode`, `MultiplyNode` whenever it fits the `int` range;
the quotient truncated toward zero for `DivideNode` whenever `b != 0` and the
quotient fits.  No zero-divisor guard is applied: with `b = 0` the operator
has no result, the node faults and stores nothing. -/
theorem operator_nodes_compute_native_result (args : NodeArguments) (a b : Int)
    (ha : args.inputs 0 = some (.int a)) (hb : args.inputs 1 = some (.int b)) :
    (args.sig = OperatorNode.OnRegister .int .EqualsNode {} →
      OperatorNode.Execute Int .EqualsNode args
        = .ok (args.store 0 (.bool (decide (a = b))))) ∧
    (args.sig = OperatorNode.OnRegister .int .NotEqualsNode {} →
      OperatorNode.Execute Int .NotEqualsNode args
        = .ok (args.store 0 (.bool (decide (a ≠ b))))) ∧
    (args.sig = OperatorNode.OnRegister .int .GreaterThanNode {} →
      OperatorNode.Execute Int .GreaterThanNode args
        = .ok (args.store 0 (.bool (decide (a > b))))) ∧
    (args.sig = OperatorNode.OnRegister .int .GreaterThanOrEqualsNode {} →
      OperatorNode.Execute Int .GreaterThanOrEqualsNode args
        = .ok (args.store 0 (.bool (decide (a ≥ b))))) ∧
    (args.sig = OperatorNode.OnRegister .int .LessThanNode {} →
      OperatorNode.Execute Int .LessThanNode args
        = .ok (args.store 0 (.bool (decide (a < b))))) ∧
    (args.sig = OperatorNode.OnRegister .int .LessThanOrEqualsNode {} →
      OperatorNode.Execute Int .LessThanOrEqualsNode args
        = .ok (args.store 0 (.bool (decide (a ≤ b))))) ∧
    (args.sig = OperatorNode.OnRegister .int .AddNode {} → fitsInt (a + b) →
      OperatorNode.Execute Int .AddNode args = .ok (args.store 0 (.int (a + b)))) ∧
    (args.sig = OperatorNode.OnRegister .int .SubtractNode {} → fitsInt (a - b) →
      OperatorNode.Execute Int .SubtractNode args = .ok (args.store 0 (.int (a - b)))) ∧
    (args.sig = OperatorNode.OnRegister .int .MultiplyNode {} → fitsInt (a * b) →
      OperatorNode.Execute Int .MultiplyNode args = .ok (args.store 0 (.int (a * b)))) ∧
    (args.sig = OperatorNode.OnRegister .int .DivideNode {} → b ≠ 0 → fitsInt (Int.tdiv a b) →
      OperatorNode.Execute Int .DivideNode args = .ok (args.store 0 (.int (Int.tdiv a b)))) ∧
    (args.sig = OperatorNode.OnRegister .int .DivideNode {} → b = 0 →
      OperatorNode.Execute Int .DivideNode args = .error .NativeOperatorFault) := by
  refine ⟨?_, ?_, ?_, ?_, ?_, ?_, ?_, ?_, ?_, ?_, ?_⟩
  · intro hsig
    exact comparison_on_int NativeOps.eq args a b hsig ha hb
  · intro hsig
    exact comparison_on_int NativeOps.ne args a b hsig ha hb
  · intro hsig
    exact comparison_on_int NativeOps.gt args a b hsig ha hb
  · intro hsig
    exact comparison_on_int NativeOps.ge args a b hsig ha hb
  · intro hsig
    exact comparison_on_int NativeOps.lt args a b hsig ha hb
  · intro hsig
    exact comparison_on_int NativeOps.le args a b hsig ha hb
  · intro hsig hfit
    have h := arithmetic_on_int NativeOps.add args a b hsig ha hb
    simpa [NativeOps.add, native, Except.bind, wrapInt_of_fitsInt hfit] using h
  · intro hsig hfit
    have h := arithmetic_on_int NativeOps.sub args a b hsig ha hb
    simpa [NativeOps.sub, native, Except.bind, wrapInt_of_fitsInt hfit] using h
  · intro hsig hfit
    have h := arithmetic_on_int NativeOps.mul args a b hsig ha hb
    simpa [NativeOps.mul, native, Except.bind, wrapInt_of_fitsInt hfit] using h
  · intro hsig hb0 hfit
    have h := arithmetic_on_int NativeOps.div args a b hsig ha hb
    simpa [NativeOps.div, native, hb0, Except.bind, wrapInt_of_fitsInt hfit] using h
  · intro hsig hb0
    have h := arithmetic_on_int NativeOps.div args a b hsig ha hb
    simpa [NativeOps.div, native, hb0, Except.bind] using h

/-- Witness for C1: `LessThanNode` on `2` and `3` stores `true`, and `DivideNode`
on `-7` and `2` stores `-3`. -/
theorem operator_nodes_compute_native_result_witness :
    OperatorNode.Execute Int .LessThanNode
        (twoInputArgs (COMPARISON_NODE.OnRegister .int {}) (.int 2) (.int 3))
      = .ok ((twoInputArgs (COMPARISON_NODE.OnRegister .int {}) (.int 2) (.int 3)).store 0
          (.bool true)) ∧
    OperatorNode.Execute Int .DivideNode
        (twoInputArgs (ARITHMETIC_NODE.OnRegister .int {}) (.int (-7)) (.int 2))
      = .ok ((twoInputArgs (ARITHMETIC_NODE.OnRegister .int {}) (.int (-7)) (.int 2)).store 0
          (.int (-3))) := by
  have hdiv : Int.tdiv (-7) 2 = -3 := by decide
  have h := (operator_nodes_compute_native_result
    (twoInputArgs (ARITHMETIC_NODE.OnRegister .int {}) (.int (-7)) (.int 2)) (-7) 2
    rfl rfl).2.2.2.2.2.2.2.2.2.1 rfl (by decide) (by decide)
  rw [hdiv] at h
  exact ⟨(operator_nodes_compute_native_result _ 2 3 rfl rfl).2.2.2.2.1 rfl, h⟩

/-! ## `MaxNode` and `MinNode` on `int` -/

theorem max_on_int (args : NodeArguments) (a b : Int)
    (hsig : args.sig = MaxNode.OnRegister .int {})
    (ha : args.inputs 0 = some (.int a)) (hb : args.inputs 1 = some (.int b)) :
    MaxNode.Execute Int args = .ok (args.store 0 (.int (std.max a b))) := by
  have h0 : args.GetInput Int 0 = .ok a :=
    GetInput_int_of_bound args 0 a (by rw [hsig]; rfl) ha
  have h1 : args.GetInput Int 1 = .ok b :=
    GetInput_int_of_bound args 1 b (by rw [hsig]; rfl) hb
  have ho : args.sig.outputs[0]? = some TypeTag.int := by rw [hsig]; rfl
  simp [MaxNode.Execute, h0, h1, bind, Except.bind, NodeArguments.SetOutput, ho,
    PortType.tag, PortType.toValue]

theorem min_on_int (args : NodeArguments) (a b : Int)
    (hsig : args.sig = MinNode.OnRegister .int {})
    (ha : args.inputs 0 = some (.int a)) (hb : args.inputs 1 = some (.int b)) :
    MinNode.Execute Int args = .ok (args.store 0 (.int (std.min a b))) := by
  have h0 : args.GetInput Int 0 = .ok a :=
    GetInput_int_of_bound args 0 a (by rw [hsig]; rfl) ha
  have h1 : args.GetInput Int 1 = .ok b :=
    GetInput_int_of_bound args 1 b (by rw [hsig]; rfl) hb
  have ho : args.sig.outputs[0]? = some TypeTag.int := by rw [hsig]; rfl
  simp [MinNode.Execute, h0, h1, bind, Except.bind, NodeArguments.SetOutput, ho,
    PortType.tag, PortType.toValue]

theorem std_max_int (a b : Int) : std.max a b = if a < b then b else a := by
  simp [std.max, NativeOps.lt]

theorem std_min_int (a b : Int) : std.min a b = if b < a then b else a := by
  simp [std.min, NativeOps.lt]

/-- C9: for all `int` inputs `a` and `b`, `MaxNode.Execute` stores into output 0
a value `hi` with `a ≤ hi`, `b ≤ hi` and `hi = a ∨ hi = b`; `MinNode.Execute`
stores a value `lo` with `lo ≤ a`, `lo ≤ b` and `lo = a ∨ lo = b`; a state
`swapped` carrying the same two inputs on exchanged ports gets the same `hi`
and `lo`; and `hi + lo = a + b`. -/
theorem max_min_nodes_select_bounds (args swapped : NodeArguments) (a b : Int)
    (ha : args.inputs 0 = some (.int a)) (hb : args.inputs 1 = some (.int b))
    (hb' : swapped.inputs 0 = some (.int b)) (ha' : swapped.inputs 1 = some (.int a)) :
    ∃ hi lo : Int,
      (args.sig = MaxNode.OnRegister .int {} →
        MaxNode.Execute Int args = .ok (args.store 0 (.int hi))) ∧
      (args.sig = MinNode.OnRegister .int {} →
        MinNode.Execute Int args = .ok (args.store 0 (.int lo))) ∧
      (swapped.sig = MaxNode.OnRegister .int {} →
        MaxNode.Execute Int swapped = .ok (swapped.store 0 (.int hi))) ∧
      (swapped.sig = MinNode.OnRegister .int {} →
        MinNode.Execute Int swapped = .ok (swapped.store 0 (.int lo))) ∧
      a ≤ hi ∧ b ≤ hi ∧ (hi = a ∨ hi = b) ∧
      lo ≤ a ∧ lo ≤ b ∧ (lo = a ∨ lo = b) ∧
      hi + lo = a + b := by
  refine ⟨std.max a b, std.min a b, ?_, ?_, ?_, ?_, ?_⟩
  · intro hsig
    exact max_on_int args a b hsig ha hb
  · intro hsig
    exact min_on_int args a b hsig ha hb
  · intro hsig
    have h := max_on_int swapped b a hsig hb' ha'
    have e : std.max b a = std.max a b := by
      rw [std_max_int, std_max_int]
      split_ifs <;> omega
    rwa [e] at h
  · intro hsig
    have h := min_on_int swapped b a hsig hb' ha'
    have e : std.min b a = std.min a b := by
      rw [std_min_int, std_min_int]
      split_ifs <;> omega
    rwa [e] at h
  · rw [std_max_int, std_min_int]
    split_ifs <;> omega

/-- Witness for C9: on `4` and `-9`, `MaxNode` stores `4` and `MinNode` stores
`-9`, on either port order. -/
theorem max_min_nodes_select_bounds_witness :
    ∃ hi lo : Int,
      (MaxNode.Execute Int (twoInputArgs (MaxNode.OnRegister .int {}) (.int 4) (.int (-9)))
        = .ok ((twoInputArgs (MaxNode.OnRegister .int {}) (.int 4) (.int (-9))).store 0
            (.int hi))) ∧
      (MinNode.Execute Int (twoInputArgs (MaxNode.OnRegister .int {}) (.int 4) (.int (-9)))
        = .ok ((twoInputArgs (MaxNode.OnRegister .int {}) (.int 4) (.int (-9))).store 0
            (.int lo))) ∧
      (MaxNode.Execute Int (twoInputArgs (MaxNode.OnRegister .int {}) (.int (-9)) (.int 4))
        = .ok ((twoInputArgs (MaxNode.OnRegister .int {}) (.int (-9)) (.int 4)).store 0
            (.int hi))) ∧
      (MinNode.Execute Int (twoInputArgs (MaxNode.OnRegister .int {}) (.int (-9)) (.int 4))
        = .ok ((twoInputArgs (MaxNode.OnRegister .int {}) (.int (-9)) (.int 4)).store 0
            (.int lo))) ∧
      hi = 4 ∧ lo = -9 := by
  obtain ⟨hi, lo, h1, h2, h3, h4, h5, h6, h7, h8, h9, h10, h11⟩ :=
    max_min_nodes_select_bounds
      (twoInputArgs (MaxNode.OnRegister .int {}) (.int 4) (.int (-9)))
      (twoInputArgs (MaxNode.OnRegister .int {}) (.int (-9)) (.int 4)) 4 (-9) rfl rfl rfl rfl
  exact ⟨hi, lo, h1 rfl, h2 rfl, h3 rfl, h4 rfl, by omega, by omega⟩

end breadboard

namespace fpl.module_library

open fpl.entity fpl.component_library breadboard

/-! ## `AnimationCompleteNode` -/

/-- The node state after listener `index` has been bound to `broadcaster`. -/
theorem BindBroadcaster_declared (args : NodeArguments) (index : Nat) (broadcaster : EntityRef)
    (ev : EventId) (h : args.sig.listeners[index]? = some ev) :
    args.BindBroadcaster index broadcaster
      = .ok { args with
              listeners := Function.update args.listeners index
                { args.listeners index with binding := some broadcaster } } := by
  simp [NodeArguments.BindBroadcaster, h]

theorem GetInput_entity_of_bound (args : NodeArguments) (i : Nat) (e : EntityRef)
    (hdecl : args.sig.inputs[i]? = some TypeTag.entityRef)
    (hv : args.inputs i = some (Value.entityRef e)) :
    args.GetInput EntityRef i = .ok e := by
  simp [NodeArguments.GetInput, hdecl, hv, PortType.tag, PortType.ofValue]

theorem AnimationCompleteNode.Initialize_valid (gc : GraphComponent) (args : NodeArguments)
    (e : EntityRef) (hsig : args.sig = AnimationCompleteNode.OnRegister {})
    (he : args.inputs 0 = some (.entityRef e)) (hvalid : e.IsValid = true) :
    AnimationCompleteNode.Initialize gc args
      = .ok ((gc.GetCreateBroadcaster e).1,
          { args with
            listeners := Function.update args.listeners 0
              { args.listeners 0 with binding := some e } }) := by
  have h0 : args.GetInput EntityRef 0 = .ok e :=
    GetInput_entity_of_bound args 0 e (by rw [hsig]; rfl) he
  have hl : args.sig.listeners[0]? = some EventId.kAnimationCompleteEventId := by
    rw [hsig]; rfl
  have hh : (gc.GetCreateBroadcaster e).2 = e := by
    unfold GraphComponent.GetCreateBroadcaster
    split <;> rfl
  simp only [AnimationCompleteNode.Initialize, h0, bind, Except.bind, hvalid, if_true]
  rw [BindBroadcaster_declared args 0 _ _ hl, hh]
  rfl

theorem AnimationCompleteNode.Initialize_invalid (gc : GraphComponent) (args : NodeArguments)
    (e : EntityRef) (hsig : args.sig = AnimationCompleteNode.OnRegister {})
    (he : args.inputs 0 = some (.entityRef e)) (hinvalid : e.IsValid = false) :
    AnimationCompleteNode.Initialize gc args = .ok (gc, args) := by
  have h0 : args.GetInput EntityRef 0 = .ok e :=
    GetInput_entity_of_bound args 0 e (by rw [hsig]; rfl) he
  simp only [AnimationCompleteNode.Initialize, h0, bind, Except.bind, hinvalid]
  rfl

/-- What `Initialize` does on a state whose input 0 holds an entity handle: it
succeeds, and changes at most the broadcaster set and the binding of
listener 0. -/
theorem AnimationCompleteNode.Initialize_frame (gc : GraphComponent) (args : NodeArguments)
    (e : EntityRef) (hsig : args.sig = AnimationCompleteNode.OnRegister {})
    (he : args.inputs 0 = some (.entityRef e)) :
    ∃ gc1 args1, AnimationCompleteNode.Initialize gc args = .ok (gc1, args1) ∧
      args1.sig = args.sig ∧ args1.inputs = args.inputs ∧ args1.outputs = args.outputs ∧
      args1.writes = args.writes ∧ (∀ i, (args1.listeners i).dirty = (args.listeners i).dirty) := by
  cases hv : e.IsValid
  · exact ⟨gc, args, AnimationCompleteNode.Initialize_invalid gc args e hsig he hv,
      rfl, rfl, rfl, rfl, fun _ => rfl⟩
  · refine ⟨_, _, AnimationCompleteNode.Initialize_valid gc args e hsig he hv,
      rfl, rfl, rfl, rfl, ?_⟩
    intro i
    by_cases hi : i = 0
    · subst hi
      simp
    · simp [Function.update, hi]

/-- What `Execute` does after its call of `Initialize` returned `(gc1, args1)`. -/
theorem AnimationCompleteNode.Execute_after_Initialize (gc gc1 : GraphComponent)
    (args args1 : NodeArguments) (hsig : args1.sig = AnimationCompleteNode.OnRegister {})
    (hinit : AnimationCompleteNode.Initialize gc args = .ok (gc1, args1)) :
    AnimationCompleteNode.Execute gc args
      = .ok (gc1, if (args1.listeners 0).dirty then args1.store 0 .void else args1) := by
  have hl : args1.sig.listeners[0]? = some EventId.kAnimationCompleteEventId := by
    rw [hsig]; rfl
  have ho : args1.sig.outputs[0]? = some TypeTag.void := by rw [hsig]; rfl
  simp only [AnimationCompleteNode.Execute, hinit, bind, Except.bind,
    NodeArguments.IsListenerDirty, hl]
  cases hd : (args1.listeners 0).dirty
  · simp [pure, Except.pure]
  · simp [pure, Except.pure, NodeArguments.SetOutput, ho, PortType.tag, PortType.toValue]

/-- What `Execute` does on a state whose input 0 holds an entity handle. -/
theorem AnimationCompleteNode.Execute_frame (gc : GraphComponent) (args : NodeArguments)
    (e : EntityRef) (hsig : args.sig = AnimationCompleteNode.OnRegister {})
    (he : args.inputs 0 = some (.entityRef e)) :
    ∃ gc1 args1, AnimationCompleteNode.Initialize gc args = .ok (gc1, args1) ∧
      AnimationCompleteNode.Execute gc args
        = .ok (gc1, if (args.listeners 0).dirty then args1.store 0 .void else args1) ∧
      args1.sig = args.sig ∧ args1.inputs = args.inputs ∧ args1.outputs = args.outputs ∧
      args1.writes = args.writes ∧ (∀ i, (args1.listeners i).dirty = (args.listeners i).dirty) := by
  obtain ⟨gc1, args1, hinit, h1, h2, h3, h4, h5⟩ :=
    AnimationCompleteNode.Initialize_frame gc args e hsig he
  refine ⟨gc1, args1, hinit, ?_, h1, h2, h3, h4, h5⟩
  rw [AnimationCompleteNode.Execute_after_Initialize gc gc1 args args1 (h1.trans hsig) hinit,
    h5 0]

/-- What one tick does on a state whose input 0 holds an entity handle. -/
theorem Tick_frame (gc : GraphComponent) (args : NodeArguments)
    (e : EntityRef) (hsig : args.sig = AnimationCompleteNode.OnRegister {})
    (he : args.inputs 0 = some (.entityRef e)) :
    ∃ gc1 args1,
      Tick gc args
        = .ok (args.writes ++ (if (args.listeners 0).dirty then [(0, Value.void)] else []),
            gc1, args1) ∧
      args1.sig = args.sig ∧ args1.inputs = args.inputs ∧ args1.writes = [] ∧
      (∀ i, (args1.listeners i).dirty = false) := by
  obtain ⟨gc1, args1, _, hexec, h1, h2, _, h4, _⟩ :=
    AnimationCompleteNode.Execute_frame gc args e hsig he
  cases hd : (args.listeners 0).dirty
  · rw [hd] at hexec
    refine ⟨(Settle gc1 args1).1, (Settle gc1 args1).2, ?_, h1, h2, rfl, fun _ => rfl⟩
    simp [Tick, hexec, bind, Except.bind, pure, Except.pure, h4]
  · rw [hd] at hexec
    refine ⟨(Settle gc1 (args1.store 0 .void)).1, (Settle gc1 (args1.store 0 .void)).2, ?_,
      h1, h2, rfl, fun _ => rfl⟩
    simp [Tick, hexec, bind, Except.bind, pure, Except.pure, NodeArguments.store, h4]

/-- C2: on every state of an `AnimationCompleteNode` whose input 0 holds an entity
handle, `Execute` succeeds and writes (triggers) output 0 exactly when listener
0 is dirty: the writes it adds are `[(0, void)]` when dirty and none otherwise.
Consequently, when listener 0 is bound to the broadcaster of `E` and that
broadcaster is fired once, the first tick makes exactly the one write of output
0, and, dirty flags being cleared when the tick settles, a second tick with no
new fire makes no write. -/
theorem animation_complete_fires_iff_dirty (gc : GraphComponent) (args : NodeArguments)
    (e : EntityRef) (hsig : args.sig = AnimationCompleteNode.OnRegister {})
    (he : args.inputs 0 = some (.entityRef e)) :
    (∃ gc1 args1, AnimationCompleteNode.Execute gc args = .ok (gc1, args1) ∧
      args1.writes
        = args.writes ++ (if (args.listeners 0).dirty then [(0, Value.void)] else []) ∧
      args1.outputs
        = (if (args.listeners 0).dirty then Function.update args.outputs 0 (some Value.void)
           else args.outputs)) ∧
    (∀ E : EntityRef, (args.listeners 0).binding = some E →
      ∃ gc1 args1,
        Tick (Fire E .kAnimationCompleteEventId gc args).1
            (Fire E .kAnimationCompleteEventId gc args).2
          = .ok (args.writes ++ [(0, Value.void)], gc1, args1) ∧
        ∃ gc2 args2, Tick gc1 args1 = .ok ([], gc2, args2)) := by
  constructor
  · obtain ⟨gc1, args1, _, hexec, _, _, h3, h4, _⟩ :=
      AnimationCompleteNode.Execute_frame gc args e hsig he
    refine ⟨gc1, _, hexec, ?_, ?_⟩
    · cases (args.listeners 0).dirty <;> simp [NodeArguments.store, h4]
    · cases (args.listeners 0).dirty <;> simp [NodeArguments.store, h3]
  · intro E hE
    have hdirty : ((Fire E .kAnimationCompleteEventId gc args).2.listeners 0).dirty = true := by
      have hl : args.sig.listeners[0]? = some EventId.kAnimationCompleteEventId := by
        rw [hsig]; rfl
      simp [Fire, hE, hl]
    obtain ⟨gc1, args1, htick, h1, h2, h3, h4⟩ :=
      Tick_frame (Fire E .kAnimationCompleteEventId gc args).1
        (Fire E .kAnimationCompleteEventId gc args).2 e hsig he
    rw [hdirty] at htick
    refine ⟨gc1, args1, htick, ?_⟩
    obtain ⟨gc2, args2, htick2, _⟩ := Tick_frame gc1 args1 e (h1.trans hsig) (by rw [h2]; exact he)
    rw [h4 0, h3] at htick2
    exact ⟨gc2, args2, htick2⟩

/-- Witness for C2: a node bound to the broadcaster of entity 7, with entity 7 on
input 0: after one fire the first tick writes output 0 once and the second
tick writes nothing. -/
theorem animation_complete_fires_iff_dirty_witness :
    ∃ gc1 args1,
      Tick
          (Fire (.entity 7) .kAnimationCompleteEventId { broadcasters := [{ key := .entity 7 }] }
            (oneInputArgs (AnimationCompleteNode.OnRegister {}) (.entityRef (.entity 7))
              { binding := some (.entity 7) })).1
          (Fire (.entity 7) .kAnimationCompleteEventId { broadcasters := [{ key := .entity 7 }] }
            (oneInputArgs (AnimationCompleteNode.OnRegister {}) (.entityRef (.entity 7))
              { binding := some (.entity 7) })).2
        = .ok ([(0, Value.void)], gc1, args1) ∧
      ∃ gc2 args2, Tick gc1 args1 = .ok ([], gc2, args2) :=
  (animation_complete_fires_iff_dirty { broadcasters := [{ key := .entity 7 }] }
    (oneInputArgs (AnimationCompleteNode.OnRegister {}) (.entityRef (.entity 7))
      { binding := some (.entity 7) })
    (.entity 7) rfl rfl).2 (.entity 7) rfl

/-- Counterexample to C5 as stated: listener 0 is bound to the broadcaster of
entity 7 and the entity input is the invalid handle, which differs from entity
7; after `Initialize`, and after `Execute`, listener 0 is still bound to the
broadcaster of entity 7. -/
theorem stale_binding_kept_on_invalid_input :
    EntityRef.invalid ≠ EntityRef.entity 7 ∧
    (∃ gc1 args1,
      AnimationCompleteNode.Initialize { broadcasters := [{ key := .entity 7 }] }
          (oneInputArgs (AnimationCompleteNode.OnRegister {}) (.entityRef .invalid)
            { binding := some (.entity 7) })
        = .ok (gc1, args1) ∧
      (args1.listeners 0).binding = some (.entity 7)) ∧
    (∃ gc1 args1,
      AnimationCompleteNode.Execute { broadcasters := [{ key := .entity 7 }] }
          (oneInputArgs (AnimationCompleteNode.OnRegister {}) (.entityRef .invalid)
            { binding := some (.entity 7) })
        = .ok (gc1, args1) ∧
      (args1.listeners 0).binding = some (.entity 7)) :=
  ⟨by decide, ⟨_, _, rfl, rfl⟩, ⟨_, _, rfl, rfl⟩⟩

/-- C5, amended: for an `AnimationCompleteNode` whose listener 0 is bound to the
broadcaster of `E`, `Initialize` and `Execute` run with an entity input `e`
different from `E` succeed and leave listener 0 with the same binding as each
other; when `e` is a valid entity, listener 0 is then bound to the broadcaster
of `e` and no longer to that of `E`; when `e` is the invalid handle,
`Initialize` changes nothing and listener 0 stays bound to the broadcaster of
`E`. -/
theorem rebinding_releases_only_on_valid_input (gc : GraphComponent) (args : NodeArguments)
    (E e : EntityRef) (hsig : args.sig = AnimationCompleteNode.OnRegister {})
    (hbound : (args.listeners 0).binding = some E)
    (he : args.inputs 0 = some (.entityRef e)) (hne : e ≠ E) :
    ∃ gc1 args1 args2,
      AnimationCompleteNode.Initialize gc args = .ok (gc1, args1) ∧
      AnimationCompleteNode.Execute gc args = .ok (gc1, args2) ∧
      (args2.listeners 0).binding = (args1.listeners 0).binding ∧
      (e.IsValid = true →
        (args1.listeners 0).binding = some e ∧ (args1.listeners 0).binding ≠ some E) ∧
      (e.IsValid = false →
        gc1 = gc ∧ args1 = args ∧ (args1.listeners 0).binding = some E) := by
  obtain ⟨gc1, args1, hinit, hexec, _⟩ := AnimationCompleteNode.Execute_frame gc args e hsig he
  refine ⟨gc1, args1, _, hinit, hexec, ?_, ?_, ?_⟩
  · cases (args.listeners 0).dirty <;> simp [NodeArguments.store]
  · intro hv
    rw [AnimationCompleteNode.Initialize_valid gc args e hsig he hv] at hinit
    injection hinit with hinit
    injection hinit with _ h2
    subst h2
    simp [hne]
  · intro hv
    rw [AnimationCompleteNode.Initialize_invalid gc args e hsig he hv] at hinit
    injection hinit with hinit
    injection hinit with h1 h2
    subst h1 h2
    exact ⟨rfl, rfl, hbound⟩

/-- Witness for C5, amended: bound to the broadcaster of entity 7 with the valid
entity 8 on input 0, `Initialize` leaves listener 0 bound to the broadcaster of
entity 8. -/
theorem rebinding_releases_only_on_valid_input_witness :
    ∃ gc1 args1,
      AnimationCompleteNode.Initialize { broadcasters := [{ key := .entity 7 }] }
          (oneInputArgs (AnimationCompleteNode.OnRegister {}) (.entityRef (.entity 8))
            { binding := some (.entity 7) })
        = .ok (gc1, args1) ∧
      (args1.listeners 0).binding = some (.entity 8) ∧
      (args1.listeners 0).binding ≠ some (.entity 7) := by
  obtain ⟨gc1, args1, _, hinit, _, _, hvalid, _⟩ :=
    rebinding_releases_only_on_valid_input { broadcasters := [{ key := .entity 7 }] }
      (oneInputArgs (AnimationCompleteNode.OnRegister {}) (.entityRef (.entity 8))
        { binding := some (.entity 7) })
      (.entity 7) (.entity 8) rfl rfl rfl (by decide)
  exact ⟨gc1, args1, hinit, hvalid rfl⟩

/-! ## `PlayAnimationNode` -/

/-- The body of `PlayAnimationNode::Execute` as a case analysis on its reads. -/
theorem PlayAnimationNode.Execute_cases (ac : AnimationComponent) (tc : TransformComponent)
    (args : NodeArguments) :
    PlayAnimationNode.Execute ac tc args
      = match args.GetInput EntityRef 1 with
        | .error f => .error f
        | .ok entity =>
          if (tc.ChildWithComponent entity ac.GetComponentId).IsValid = true then
            match args.GetInput Int 2 with
            | .error f => .error f
            | .ok anim_idx =>
              .ok (ac.AnimateFromTable (tc.ChildWithComponent entity ac.GetComponentId) anim_idx,
                args)
          else .error .AssertionFailed := by
  unfold PlayAnimationNode.Execute
  cases h1 : args.GetInput EntityRef 1 with
  | error f => rfl
  | ok entity =>
    cases hv : (tc.ChildWithComponent entity ac.GetComponentId).IsValid with
    | false =>
      simp [bind, Except.bind, hv, throw, throwThe, MonadExceptOf.throw]
    | true =>
      cases h2 : args.GetInput Int 2 with
      | error f => simp [bind, Except.bind, hv, h2, pure, Except.pure]
      | ok anim_idx => simp [bind, Except.bind, hv, h2, pure, Except.pure]

theorem PlayAnimationNode.Execute_bound (ac : AnimationComponent) (tc : TransformComponent)
    (args : NodeArguments) (E : EntityRef) (i : Int)
    (hsig : args.sig = PlayAnimationNode.OnRegister {})
    (hE : args.inputs 1 = some (.entityRef E)) (hi : args.inputs 2 = some (.int i)) :
    PlayAnimationNode.Execute ac tc args
      = if (tc.ChildWithComponent E ac.GetComponentId).IsValid = true then
          .ok (ac.AnimateFromTable (tc.ChildWithComponent E ac.GetComponentId) i, args)
        else .error .AssertionFailed := by
  have h1 : args.GetInput EntityRef 1 = .ok E :=
    GetInput_entity_of_bound args 1 E (by rw [hsig]; rfl) hE
  have h2 : args.GetInput Int 2 = .ok i :=
    GetInput_int_of_bound args 2 i (by rw [hsig]; rfl) hi
  rw [PlayAnimationNode.Execute_cases, h1, h2]

/-- C3: for every entity `E` on input 1 that has a child holding an animation
component (the handle `ChildWithComponent` resolves for `E` is valid) and every
table index `i` on input 2, one call of `PlayAnimationNode.Execute` succeeds
and adds to the operations invoked on the animation subsystem exactly one
call, `AnimateFromTable` of the resolved child with index `i`; the node state
is returned as it was. -/
theorem play_animation_animates_resolved_child (ac : AnimationComponent)
    (tc : TransformComponent) (args : NodeArguments) (E : EntityRef) (i : Int)
    (hsig : args.sig = PlayAnimationNode.OnRegister {})
    (hE : args.inputs 1 = some (.entityRef E)) (hi : args.inputs 2 = some (.int i))
    (hchild : (tc.ChildWithComponent E ac.GetComponentId).IsValid = true) :
    PlayAnimationNode.Execute ac tc args
      = .ok ({ ac with
               calls := ac.calls ++
                 [AnimationCall.AnimateFromTable (tc.ChildWithComponent E ac.GetComponentId) i] },
             args) := by
  rw [PlayAnimationNode.Execute_bound ac tc args E i hsig hE hi, if_pos hchild]
  rfl

/-- Witness for C3: entity 1 whose animated child is entity 2, table index 2. -/
theorem play_animation_animates_resolved_child_witness :
    PlayAnimationNode.Execute { component_id := 5 }
        { ChildWithComponent := fun e _ => if e = .entity 1 then .entity 2 else .invalid }
        (threeInputArgs (PlayAnimationNode.OnRegister {}) (some .void)
          (some (.entityRef (.entity 1))) (some (.int 2)))
      = .ok ({ component_id := 5, calls := [.AnimateFromTable (.entity 2) 2] },
             threeInputArgs (PlayAnimationNode.OnRegister {}) (some .void)
               (some (.entityRef (.entity 1))) (some (.int 2))) :=
  play_animation_animates_resolved_child { component_id := 5 }
    { ChildWithComponent := fun e _ => if e = .entity 1 then .entity 2 else .invalid }
    (threeInputArgs (PlayAnimationNode.OnRegister {}) (some .void)
      (some (.entityRef (.entity 1))) (some (.int 2)))
    (.entity 1) 2 rfl rfl rfl rfl

/-- Counterexample to C6 as stated: entity 1 is valid but has no child holding
an animation component; `PlayAnimationNode.Execute` does not complete, its
assertion fails. -/
theorem play_animation_asserts_without_child :
    PlayAnimationNode.Execute { component_id := 5 }
        { ChildWithComponent := fun _ _ => .invalid }
        (threeInputArgs (PlayAnimationNode.OnRegister {}) (some .void)
          (some (.entityRef (.entity 1))) (some (.int 2)))
      = .error .AssertionFailed := by
  rw [PlayAnimationNode.Execute_bound _ _ _ (.entity 1) 2 rfl rfl rfl]
  rfl

/-- C6, amended: `AnimationCompleteNode.Execute` completes normally for every
entity input, valid or invalid; `PlayAnimationNode.Execute` completes normally
for every entity input, valid or invalid, for which `ChildWithComponent`
resolves a valid child, and otherwise fails its assertion
`anim_entity.IsValid()`. -/
theorem execute_completes_unless_child_missing (gc : GraphComponent) (ac : AnimationComponent)
    (tc : TransformComponent) (complete_args play_args : NodeArguments) (e E : EntityRef)
    (i : Int)
    (hsig : complete_args.sig = AnimationCompleteNode.OnRegister {})
    (he : complete_args.inputs 0 = some (.entityRef e))
    (hsig' : play_args.sig = PlayAnimationNode.OnRegister {})
    (hE : play_args.inputs 1 = some (.entityRef E))
    (hi : play_args.inputs 2 = some (.int i)) :
    (∃ result, AnimationCompleteNode.Execute gc complete_args = .ok result) ∧
    ((tc.ChildWithComponent E ac.GetComponentId).IsValid = true →
      ∃ result, PlayAnimationNode.Execute ac tc play_args = .ok result) ∧
    ((tc.ChildWithComponent E ac.GetComponentId).IsValid = false →
      PlayAnimationNode.Execute ac tc play_args = .error .AssertionFailed) := by
  refine ⟨?_, ?_, ?_⟩
  · obtain ⟨gc1, args1, _, hexec, _⟩ :=
      AnimationCompleteNode.Execute_frame gc complete_args e hsig he
    exact ⟨_, hexec⟩
  · intro hv
    exact ⟨_, by rw [PlayAnimationNode.Execute_bound ac tc play_args E i hsig' hE hi, if_pos hv]⟩
  · intro hv
    rw [PlayAnimationNode.Execute_bound ac tc play_args E i hsig' hE hi, hv]
    rfl

/-- Witness for C6, amended: the invalid handle on input 0 of an
`AnimationCompleteNode`, and on input 1 of a `PlayAnimationNode` whose
transform component resolves entity 2 for every handle. -/
theorem execute_completes_unless_child_missing_witness :
    (∃ result,
      AnimationCompleteNode.Execute {}
        (oneInputArgs (AnimationCompleteNode.OnRegister {}) (.entityRef .invalid) {})
        = .ok result) ∧
    (∃ result,
      PlayAnimationNode.Execute { component_id := 5 } { ChildWithComponent := fun _ _ => .entity 2 }
        (threeInputArgs (PlayAnimationNode.OnRegister {}) none (some (.entityRef .invalid))
          (some (.int 0)))
        = .ok result) := by
  have h := execute_completes_unless_child_missing {} { component_id := 5 }
    { ChildWithComponent := fun _ _ => .entity 2 }
    (oneInputArgs (AnimationCompleteNode.OnRegister {}) (.entityRef .invalid) {})
    (threeInputArgs (PlayAnimationNode.OnRegister {}) none (some (.entityRef .invalid))
      (some (.int 0)))
    .invalid .invalid 0 rfl rfl rfl rfl rfl
  exact ⟨h.1, h.2.1 rfl⟩

/-- A read of input `i` depends on the signature and on the content of port `i`
only. -/
theorem GetInput_congr (α : Type) [PortType α] (args args' : NodeArguments) (i : Nat)
    (hsig : args'.sig = args.sig) (hi : args'.inputs i = args.inputs i) :
    args'.GetInput α i = args.GetInput α i := by
  simp only [NodeArguments.GetInput, hsig, hi]

/-- C10: for every argument state, a `PlayAnimationNode.Execute` that returns
hands back the node state it was given, so every output slot keeps its value
and no write of the declared void output 0 is recorded; and its behaviour does
not depend on input 0: on a second state of the same node kind that agrees on
inputs 1 and 2 it ends in the same fault, or makes the same `AnimateFromTable`
call on the animation subsystem and likewise hands back that state
unchanged. -/
theorem play_animation_writes_nothing (ac : AnimationComponent) (tc : TransformComponent)
    (args args' : NodeArguments) (hsig : args'.sig = args.sig)
    (h1 : args'.inputs 1 = args.inputs 1) (h2 : args'.inputs 2 = args.inputs 2) :
    (∀ ac1 args1, PlayAnimationNode.Execute ac tc args = .ok (ac1, args1) →
      args1 = args ∧ args1.outputs = args.outputs ∧ args1.writes = args.writes ∧
      PlayAnimationNode.Execute ac tc args' = .ok (ac1, args')) ∧
    (∀ f, PlayAnimationNode.Execute ac tc args = .error f →
      PlayAnimationNode.Execute ac tc args' = .error f) := by
  have e1 := GetInput_congr EntityRef args args' 1 hsig h1
  have e2 := GetInput_congr Int args args' 2 hsig h2
  rw [PlayAnimationNode.Execute_cases ac tc args, PlayAnimationNode.Execute_cases ac tc args',
    e1, e2]
  cases args.GetInput EntityRef 1 with
  | error f => simp
  | ok entity =>
    by_cases hv : (tc.ChildWithComponent entity ac.GetComponentId).IsValid = true
    · simp only [if_pos hv]
      cases args.GetInput Int 2 with
      | error f => simp
      | ok anim_idx =>
        constructor
        · intro ac1 args1 h
          injection h with h
          injection h with ha hb
          subst ha hb
          exact ⟨rfl, rfl, rfl, rfl⟩
        · intro f h
          cases h
    · simp only [if_neg hv]
      simp

/-- Witness for C10: two states that differ in input 0 only (a trigger, nothing)
make the same call and come back unchanged. -/
theorem play_animation_writes_nothing_witness :
    PlayAnimationNode.Execute { component_id := 5 } { ChildWithComponent := fun _ _ => .entity 2 }
        (threeInputArgs (PlayAnimationNode.OnRegister {}) none
          (some (.entityRef (.entity 1))) (some (.int 3)))
      = .ok ({ component_id := 5, calls := [.AnimateFromTable (.entity 2) 3] },
             threeInputArgs (PlayAnimationNode.OnRegister {}) none
               (some (.entityRef (.entity 1))) (some (.int 3))) :=
  ((play_animation_writes_nothing { component_id := 5 }
    { ChildWithComponent := fun _ _ => .entity 2 }
    (threeInputArgs (PlayAnimationNode.OnRegister {}) (some .void)
      (some (.entityRef (.entity 1))) (some (.int 3)))
    (threeInputArgs (PlayAnimationNode.OnRegister {}) none
      (some (.entityRef (.entity 1))) (some (.int 3)))
    rfl rfl rfl).1 _ _ rfl).2.2.2

/-! ## Port accesses stay inside the declared signature -/

/-- A read of a port declared with the type asked for fails only for want of a
value on the port. -/
theorem GetInput_declared (α : Type) [PortType α] (args : NodeArguments) (i : Nat) (f : Fault)
    (hdecl : args.sig.inputs[i]? = some (PortType.tag α))
    (h : args.GetInput α i = .error f) : f ≠ .TypeMismatch ∧ f ≠ .IndexOutOfRange := by
  simp only [NodeArguments.GetInput, hdecl, ne_eq, not_true_eq_false, if_false] at h
  cases hv : args.inputs i with
  | none =>
    rw [hv] at h
    injection h with h
    subst h
    exact ⟨by decide, by decide⟩
  | some v =>
    rw [hv] at h
    cases ho : (PortType.ofValue v : Option α) with
    | none =>
      simp only [ho] at h
      injection h with h
      subst h
      exact ⟨by decide, by decide⟩
    | some a =>
      simp only [ho] at h
      cases h

/-- A write of a port declared with the type of the value succeeds. -/
theorem SetOutput_declared {α : Type} [PortType α] (args : NodeArguments) (i : Nat) (v : α)
    (hdecl : args.sig.outputs[i]? = some (PortType.tag α)) :
    args.SetOutput i v = .ok (args.store i (PortType.toValue v)) := by
  simp [NodeArguments.SetOutput, hdecl]

theorem comparison_accesses_declared {α : Type} [PortType α] (op : α → α → Bool)
    (args : NodeArguments) (f : Fault)
    (hsig : args.sig = COMPARISON_NODE.OnRegister (PortType.tag α) {})
    (h : COMPARISON_NODE.Initialize op args = .error f) :
    f ≠ .TypeMismatch ∧ f ≠ .IndexOutOfRange := by
  have d0 : args.sig.inputs[0]? = some (PortType.tag α) := by rw [hsig]; rfl
  have d1 : args.sig.inputs[1]? = some (PortType.tag α) := by rw [hsig]; rfl
  have d2 : args.sig.outputs[0]? = some (PortType.tag Bool) := by rw [hsig]; rfl
  unfold COMPARISON_NODE.Initialize at h
  cases h0 : args.GetInput α 0 with
  | error g =>
    simp only [h0, bind, Except.bind] at h
    injection h with h
    subst h
    exact GetInput_declared α args 0 g d0 h0
  | ok a =>
    cases h1 : args.GetInput α 1 with
    | error g =>
      simp only [h0, h1, bind, Except.bind] at h
      injection h with h
      subst h
      exact GetInput_declared α args 1 g d1 h1
    | ok b =>
      simp only [h0, h1, bind, Except.bind, SetOutput_declared args 0 (op a b) d2] at h
      cases h

theorem arithmetic_accesses_declared {α : Type} [PortType α] (op : α → α → Option α)
    (args : NodeArguments) (f : Fault)
    (hsig : args.sig = ARITHMETIC_NODE.OnRegister (PortType.tag α) {})
    (h : ARITHMETIC_NODE.Initialize op args = .error f) :
    f ≠ .TypeMismatch ∧ f ≠ .IndexOutOfRange := by
  have d0 : args.sig.inputs[0]? = some (PortType.tag α) := by rw [hsig]; rfl
  have d1 : args.sig.inputs[1]? = some (PortType.tag α) := by rw [hsig]; rfl
  have d2 : args.sig.outputs[0]? = some (PortType.tag α) := by rw [hsig]; rfl
  unfold ARITHMETIC_NODE.Initialize at h
  cases h0 : args.GetInput α 0 with
  | error g =>
    simp only [h0, bind, Except.bind] at h
    injection h with h
    subst h
    exact GetInput_declared α args 0 g d0 h0
  | ok a =>
    cases h1 : args.GetInput α 1 with
    | error g =>
      simp only [h0, h1, bind, Except.bind] at h
      injection h with h
      subst h
      exact GetInput_declared α args 1 g d1 h1
    | ok b =>
      cases hr : op a b with
      | none =>
        simp only [h0, h1, hr, native, bind, Except.bind] at h
        injection h with h
        subst h
        exact ⟨by decide, by decide⟩
      | some r =>
        simp only [h0, h1, hr, native, bind, Except.bind, SetOutput_declared args 0 r d2] at h
        cases h

theorem selection_accesses_declared {α : Type} [PortType α] (pick : α → α → α)
    (args : NodeArguments) (f : Fault)
    (d0 : args.sig.inputs[0]? = some (PortType.tag α))
    (d1 : args.sig.inputs[1]? = some (PortType.tag α))
    (d2 : args.sig.outputs[0]? = some (PortType.tag α))
    (h : (do
      let a ← args.GetInput α 0
      let b ← args.GetInput α 1
      args.SetOutput 0 (pick a b)) = Except.error f) :
    f ≠ .TypeMismatch ∧ f ≠ .IndexOutOfRange := by
  cases h0 : args.GetInput α 0 with
  | error g =>
    simp only [h0, bind, Except.bind] at h
    injection h with h
    subst h
    exact GetInput_declared α args 0 g d0 h0
  | ok a =>
    cases h1 : args.GetInput α 1 with
    | error g =>
      simp only [h0, h1, bind, Except.bind] at h
      injection h with h
      subst h
      exact GetInput_declared α args 1 g d1 h1
    | ok b =>
      simp only [h0, h1, bind, Except.bind, SetOutput_declared args 0 (pick a b) d2] at h
      cases h

theorem GetInput_entity_ok_inv (args : NodeArguments) (i : Nat) (e : EntityRef)
    (h : args.GetInput EntityRef i = .ok e) : args.inputs i = some (.entityRef e) := by
  unfold NodeArguments.GetInput at h
  split at h
  · cases h
  · split at h
    · cases h
    · split at h
      · cases h
      · rename_i v hv
        cases v <;> simp [PortType.ofValue] at h
        rw [hv, h]

theorem animation_complete_accesses_declared (gc : GraphComponent) (args : NodeArguments)
    (f : Fault) (hsig : args.sig = AnimationCompleteNode.OnRegister {})
    (h : AnimationCompleteNode.Initialize gc args = .error f ∨
      AnimationCompleteNode.Execute gc args = .error f) :
    f ≠ .TypeMismatch ∧ f ≠ .IndexOutOfRange := by
  have d0 : args.sig.inputs[0]? = some (PortType.tag EntityRef) := by rw [hsig]; rfl
  cases h0 : args.GetInput EntityRef 0 with
  | error g =>
    have hi : AnimationCompleteNode.Initialize gc args = .error g := by
      simp [AnimationCompleteNode.Initialize, h0, bind, Except.bind]
    have hx : AnimationCompleteNode.Execute gc args = .error g := by
      simp [AnimationCompleteNode.Execute, hi, bind, Except.bind]
    have hg := GetInput_declared EntityRef args 0 g d0 h0
    rcases h with h | h
    · rw [hi] at h
      injection h with h
      subst h
      exact hg
    · rw [hx] at h
      injection h with h
      subst h
      exact hg
  | ok e =>
    have he := GetInput_entity_ok_inv args 0 e h0
    obtain ⟨gc1, args1, hinit, hexec, _⟩ := AnimationCompleteNode.Execute_frame gc args e hsig he
    rcases h with h | h
    · rw [hinit] at h
      cases h
    · rw [hexec] at h
      cases h

theorem play_animation_accesses_declared (ac : AnimationComponent) (tc : TransformComponent)
    (args : NodeArguments) (f : Fault) (hsig : args.sig = PlayAnimationNode.OnRegister {})
    (h : PlayAnimationNode.Execute ac tc args = .error f) :
    f ≠ .TypeMismatch ∧ f ≠ .IndexOutOfRange := by
  have d1 : args.sig.inputs[1]? = some (PortType.tag EntityRef) := by rw [hsig]; rfl
  have d2 : args.sig.inputs[2]? = some (PortType.tag Int) := by rw [hsig]; rfl
  rw [PlayAnimationNode.Execute_cases] at h
  cases h1 : args.GetInput EntityRef 1 with
  | error g =>
    simp only [h1] at h
    injection h with h
    subst h
    exact GetInput_declared EntityRef args 1 g d1 h1
  | ok entity =>
    simp only [h1] at h
    by_cases hv : (tc.ChildWithComponent entity ac.GetComponentId).IsValid = true
    · simp only [if_pos hv] at h
      cases h2 : args.GetInput Int 2 with
      | error g =>
        simp only [h2] at h
        injection h with h
        subst h
        exact GetInput_declared Int args 2 g d2 h2
      | ok anim_idx =>
        simp only [h2] at h
        cases h
    · simp only [if_neg hv] at h
      injection h with h
      subst h
      exact ⟨by decide, by decide⟩

/-- C7: for every instantiation type `T`, `OnRegister` of each of the twelve math
kinds declares exactly two inputs of type `T` and exactly one output, of type
`bool` for the six comparison kinds and of type `T` for `add`, `subtract`,
`multiply`, `divide`, `max` and `min`; and on every state of a node carrying
its kind's signature, `Initialize` and `Execute` of every kind, math and
animation, never end in `TypeMismatch` nor in an undeclared port index: each
`GetInput`, `SetOutput`, `IsListenerDirty` and `BindBroadcaster` they make
names a declared port with its declared type. -/
theorem port_accesses_match_signature :
    (∀ T : TypeTag,
      OperatorNode.OnRegister T .EqualsNode {} = ⟨[T, T], [.bool], []⟩ ∧
      OperatorNode.OnRegister T .NotEqualsNode {} = ⟨[T, T], [.bool], []⟩ ∧
      OperatorNode.OnRegister T .GreaterThanNode {} = ⟨[T, T], [.bool], []⟩ ∧
      OperatorNode.OnRegister T .GreaterThanOrEqualsNode {} = ⟨[T, T], [.bool], []⟩ ∧
      OperatorNode.OnRegister T .LessThanNode {} = ⟨[T, T], [.bool], []⟩ ∧
      OperatorNode.OnRegister T .LessThanOrEqualsNode {} = ⟨[T, T], [.bool], []⟩ ∧
      OperatorNode.OnRegister T .AddNode {} = ⟨[T, T], [T], []⟩ ∧
      OperatorNode.OnRegister T .SubtractNode {} = ⟨[T, T], [T], []⟩ ∧
      OperatorNode.OnRegister T .MultiplyNode {} = ⟨[T, T], [T], []⟩ ∧
      OperatorNode.OnRegister T .DivideNode {} = ⟨[T, T], [T], []⟩ ∧
      MaxNode.OnRegister T {} = ⟨[T, T], [T], []⟩ ∧
      MinNode.OnRegister T {} = ⟨[T, T], [T], []⟩) ∧
    (∀ (α : Type) [PortType α] [NativeOps α] (node : OperatorNode) (args : NodeArguments)
        (f : Fault),
      args.sig = OperatorNode.OnRegister (PortType.tag α) node {} →
      (OperatorNode.Initialize α node args = .error f ∨
        OperatorNode.Execute α node args = .error f) →
      f ≠ .TypeMismatch ∧ f ≠ .IndexOutOfRange) ∧
    (∀ (α : Type) [PortType α] [NativeOps α] (args : NodeArguments) (f : Fault),
      args.sig = MaxNode.OnRegister (PortType.tag α) {} →
      MaxNode.Execute α args = .error f →
      f ≠ .TypeMismatch ∧ f ≠ .IndexOutOfRange) ∧
    (∀ (α : Type) [PortType α] [NativeOps α] (args : NodeArguments) (f : Fault),
      args.sig = MinNode.OnRegister (PortType.tag α) {} →
      MinNode.Execute α args = .error f →
      f ≠ .TypeMismatch ∧ f ≠ .IndexOutOfRange) ∧
    (∀ (gc : GraphComponent) (args : NodeArguments) (f : Fault),
      args.sig = AnimationCompleteNode.OnRegister {} →
      (AnimationCompleteNode.Initialize gc args = .error f ∨
        AnimationCompleteNode.Execute gc args = .error f) →
      f ≠ .TypeMismatch ∧ f ≠ .IndexOutOfRange) ∧
    (∀ (ac : AnimationComponent) (tc : TransformComponent) (args : NodeArguments) (f : Fault),
      args.sig = PlayAnimationNode.OnRegister {} →
      PlayAnimationNode.Execute ac tc args = .error f →
      f ≠ .TypeMismatch ∧ f ≠ .IndexOutOfRange) := by
  refine ⟨?_, ?_, ?_, ?_, ?_, ?_⟩
  · intro T
    exact ⟨rfl, rfl, rfl, rfl, rfl, rfl, rfl, rfl, rfl, rfl, rfl, rfl⟩
  · intro α _ _ node args f hsig h
    have h' : OperatorNode.Initialize α node args = .error f := by
      rcases h with h | h
      · exact h
      · cases node <;> exact h
    cases node
    case EqualsNode => exact comparison_accesses_declared _ args f hsig h'
    case NotEqualsNode => exact comparison_accesses_declared _ args f hsig h'
    case GreaterThanNode => exact comparison_accesses_declared _ args f hsig h'
    case GreaterThanOrEqualsNode => exact comparison_accesses_declared _ args f hsig h'
    case LessThanNode => exact comparison_accesses_declared _ args f hsig h'
    case LessThanOrEqualsNode => exact comparison_accesses_declared _ args f hsig h'
    case AddNode => exact arithmetic_accesses_declared _ args f hsig h'
    case SubtractNode => exact arithmetic_accesses_declared _ args f hsig h'
    case MultiplyNode => exact arithmetic_accesses_declared _ args f hsig h'
    case DivideNode => exact arithmetic_accesses_declared _ args f hsig h'
  · intro α _ _ args f hsig h
    exact selection_accesses_declared std.max args f (by rw [hsig]; rfl) (by rw [hsig]; rfl)
      (by rw [hsig]; rfl) h
  · intro α _ _ args f hsig h
    exact selection_accesses_declared std.min args f (by rw [hsig]; rfl) (by rw [hsig]; rfl)
      (by rw [hsig]; rfl) h
  · intro gc args f hsig h
    exact animation_complete_accesses_declared gc args f hsig h
  · intro ac tc args f hsig h
    exact play_animation_accesses_declared ac tc args f hsig h

/-- Witness for C7: an `int` `DivideNode` fed `1` and `0` carries the signature of
its kind and faults in the operator, not in a port access. -/
theorem port_accesses_match_signature_witness :
    OperatorNode.Execute Int .DivideNode
        (twoInputArgs (OperatorNode.OnRegister .int .DivideNode {}) (.int 1) (.int 0))
      = .error .NativeOperatorFault ∧
    Fault.NativeOperatorFault ≠ .TypeMismatch ∧ Fault.NativeOperatorFault ≠ .IndexOutOfRange :=
  ⟨rfl, port_accesses_match_signature.2.1 Int .DivideNode
    (twoInputArgs (OperatorNode.OnRegister .int .DivideNode {}) (.int 1) (.int 0))
    .NativeOperatorFault rfl (Or.inr rfl)⟩

/-! ## `Initialize` is idempotent -/

theorem SetOutput_ok_inv {α : Type} [PortType α] (args args1 : NodeArguments) (i : Nat) (v : α)
    (h : args.SetOutput i v = .ok args1) :
    args1 = args.store i (PortType.toValue v) ∧
      args.sig.outputs[i]? = some (PortType.tag α) := by
  unfold NodeArguments.SetOutput at h
  split at h
  · cases h
  · rename_i t ht
    split at h
    · cases h
    · rename_i hne
      injection h with h
      refine ⟨h.symm, ?_⟩
      rw [ht]
      simpa using hne

/-- Storing the same value into the same slot twice leaves the slots as after
the first store. -/
theorem store_store_outputs (args : NodeArguments) (i : Nat) (v : Value) :
    ((args.store i v).store i v).outputs = (args.store i v).outputs := by
  simp [NodeArguments.store]

theorem comparison_initialize_twice {α : Type} [PortType α] (op : α → α → Bool)
    (args args1 : NodeArguments) (h : COMPARISON_NODE.Initialize op args = .ok args1) :
    ∃ args2, COMPARISON_NODE.Initialize op args1 = .ok args2 ∧ args2.sig = args1.sig ∧
      args2.inputs = args1.inputs ∧ args2.outputs = args1.outputs ∧
      args2.listeners = args1.listeners := by
  unfold COMPARISON_NODE.Initialize at h
  cases h0 : args.GetInput α 0 with
  | error g =>
    simp only [h0, bind, Except.bind] at h
    cases h
  | ok a =>
    cases h1 : args.GetInput α 1 with
    | error g =>
      simp only [h0, h1, bind, Except.bind] at h
      cases h
    | ok b =>
      simp only [h0, h1, bind, Except.bind] at h
      obtain ⟨hstore, hdecl⟩ := SetOutput_ok_inv args args1 0 (op a b) h
      subst hstore
      have g0 : (args.store 0 (PortType.toValue (op a b))).GetInput α 0 = .ok a :=
        (GetInput_congr α args _ 0 rfl rfl).trans h0
      have g1 : (args.store 0 (PortType.toValue (op a b))).GetInput α 1 = .ok b :=
        (GetInput_congr α args _ 1 rfl rfl).trans h1
      refine ⟨(args.store 0 (PortType.toValue (op a b))).store 0 (PortType.toValue (op a b)),
        ?_, rfl, rfl, store_store_outputs _ _ _, rfl⟩
      simp only [COMPARISON_NODE.Initialize, g0, g1, bind, Except.bind]
      exact SetOutput_declared _ 0 (op a b) hdecl

theorem arithmetic_initialize_twice {α : Type} [PortType α] (op : α → α → Option α)
    (args args1 : NodeArguments) (h : ARITHMETIC_NODE.Initialize op args = .ok args1) :
    ∃ args2, ARITHMETIC_NODE.Initialize op args1 = .ok args2 ∧ args2.sig = args1.sig ∧
      args2.inputs = args1.inputs ∧ args2.outputs = args1.outputs ∧
      args2.listeners = args1.listeners := by
  unfold ARITHMETIC_NODE.Initialize at h
  cases h0 : args.GetInput α 0 with
  | error g =>
    simp only [h0, bind, Except.bind] at h
    cases h
  | ok a =>
    cases h1 : args.GetInput α 1 with
    | error g =>
      simp only [h0, h1, bind, Except.bind] at h
      cases h
    | ok b =>
      cases hr : op a b with
      | none =>
        simp only [h0, h1, hr, native, bind, Except.bind] at h
        cases h
      | some r =>
        simp only [h0, h1, hr, native, bind, Except.bind] at h
        obtain ⟨hstore, hdecl⟩ := SetOutput_ok_inv args args1 0 r h
        subst hstore
        have g0 : (args.store 0 (PortType.toValue r)).GetInput α 0 = .ok a :=
          (GetInput_congr α args _ 0 rfl rfl).trans h0
        have g1 : (args.store 0 (PortType.toValue r)).GetInput α 1 = .ok b :=
          (GetInput_congr α args _ 1 rfl rfl).trans h1
        refine ⟨(args.store 0 (PortType.toValue r)).store 0 (PortType.toValue r),
          ?_, rfl, rfl, store_store_outputs _ _ _, rfl⟩
        simp only [ARITHMETIC_NODE.Initialize, g0, g1, hr, native, bind, Except.bind]
        exact SetOutput_declared _ 0 r hdecl

theorem GetCreateBroadcaster_again (gc : GraphComponent) (e : EntityRef) :
    (gc.GetCreateBroadcaster e).1.GetCreateBroadcaster e
      = ((gc.GetCreateBroadcaster e).1, e) := by
  unfold GraphComponent.GetCreateBroadcaster
  by_cases h : gc.broadcasters.any (fun b => decide (b.key = e)) = true
  · simp only [h, if_true]
  · simp only [h]
    simp

/-- `Initialize` run on the state it returned changes nothing. -/
theorem AnimationCompleteNode.Initialize_again (gc : GraphComponent) (args : NodeArguments)
    (e : EntityRef) (hsig : args.sig = AnimationCompleteNode.OnRegister {})
    (he : args.inputs 0 = some (.entityRef e)) :
    ∃ gc1 args1, AnimationCompleteNode.Initialize gc args = .ok (gc1, args1) ∧
      AnimationCompleteNode.Initialize gc1 args1 = .ok (gc1, args1) := by
  cases hv : e.IsValid
  · exact ⟨gc, args, AnimationCompleteNode.Initialize_invalid gc args e hsig he hv,
      AnimationCompleteNode.Initialize_invalid gc args e hsig he hv⟩
  · refine ⟨_, _, AnimationCompleteNode.Initialize_valid gc args e hsig he hv, ?_⟩
    have h2 := AnimationCompleteNode.Initialize_valid (gc.GetCreateBroadcaster e).1
      { args with
        listeners := Function.update args.listeners 0
          { args.listeners 0 with binding := some e } } e hsig he hv
    rw [h2, GetCreateBroadcaster_again]
    simp

/-- `Execute` run on the state it returned keeps the broadcaster set and the
listeners. -/
theorem AnimationCompleteNode.Execute_again (gc : GraphComponent) (args : NodeArguments)
    (e : EntityRef) (hsig : args.sig = AnimationCompleteNode.OnRegister {})
    (he : args.inputs 0 = some (.entityRef e)) :
    ∃ gc1 args1 args2, AnimationCompleteNode.Execute gc args = .ok (gc1, args1) ∧
      AnimationCompleteNode.Execute gc1 args1 = .ok (gc1, args2) ∧
      args2.listeners = args1.listeners := by
  obtain ⟨gc1, a1, hinit, hexec, h1, h2, _, _, _⟩ :=
    AnimationCompleteNode.Execute_frame gc args e hsig he
  obtain ⟨gc1', a1', hinit', hagain⟩ := AnimationCompleteNode.Initialize_again gc args e hsig he
  rw [hinit] at hinit'
  injection hinit' with hinit'
  injection hinit' with e1 e2
  subst e1 e2
  -- the state handed back by the first `Execute`
  have hx : ∀ x : NodeArguments, x.sig = a1.sig → x.inputs = a1.inputs →
      x.listeners = a1.listeners →
      ∃ args2, AnimationCompleteNode.Execute gc1 x = .ok (gc1, args2) ∧
        args2.listeners = x.listeners := by
    intro x xs xi xl
    have xsig : x.sig = AnimationCompleteNode.OnRegister {} := xs.trans (h1.trans hsig)
    have xe : x.inputs 0 = some (.entityRef e) := by rw [xi, h2]; exact he
    have asig : a1.sig = AnimationCompleteNode.OnRegister {} := h1.trans hsig
    have ae : a1.inputs 0 = some (.entityRef e) := by rw [h2]; exact he
    have hinitx : AnimationCompleteNode.Initialize gc1 x = .ok (gc1, x) := by
      cases hv : e.IsValid
      · exact AnimationCompleteNode.Initialize_invalid gc1 x e xsig xe hv
      · rw [AnimationCompleteNode.Initialize_valid gc1 a1 e asig ae hv] at hagain
        injection hagain with hagain
        injection hagain with g1 g2
        rw [AnimationCompleteNode.Initialize_valid gc1 x e xsig xe hv, g1]
        have g3 := congrArg NodeArguments.listeners g2
        simp only at g3
        rw [xl, g3, ← xl]
    refine ⟨_, AnimationCompleteNode.Execute_after_Initialize gc1 gc1 x x xsig hinitx, ?_⟩
    cases (x.listeners 0).dirty <;> simp [NodeArguments.store]
  cases hd : (args.listeners 0).dirty
  · rw [hd] at hexec
    obtain ⟨args2, hx2, hl⟩ := hx a1 rfl rfl rfl
    exact ⟨gc1, a1, args2, hexec, hx2, hl⟩
  · rw [hd] at hexec
    obtain ⟨args2, hx2, hl⟩ := hx (a1.store 0 .void) rfl rfl rfl
    exact ⟨gc1, _, args2, hexec, hx2, hl⟩

/-- C8: running `Initialize` twice in succession with unchanged inputs yields the
same state as running it once.  For each of the ten generated operator nodes,
at every instantiation type: when `Initialize` returns, a second `Initialize`
on the returned state returns too, with the same signature, inputs, output
values and listeners.  For `AnimationCompleteNode`: `Initialize` on the state
it returned hands back that very state, broadcaster set and listener bindings
included; and `Execute`, which runs `Initialize` again every tick, run a
second time on the same entity input leaves the broadcaster set and the
listeners as the first run left them. -/
theorem initialize_twice_same_state :
    (∀ (α : Type) [PortType α] [NativeOps α] (node : OperatorNode) (args args1 : NodeArguments),
      OperatorNode.Initialize α node args = .ok args1 →
      ∃ args2, OperatorNode.Initialize α node args1 = .ok args2 ∧ args2.sig = args1.sig ∧
        args2.inputs = args1.inputs ∧ args2.outputs = args1.outputs ∧
        args2.listeners = args1.listeners) ∧
    (∀ (gc : GraphComponent) (args : NodeArguments) (e : EntityRef),
      args.sig = AnimationCompleteNode.OnRegister {} →
      args.inputs 0 = some (.entityRef e) →
      ∃ gc1 args1, AnimationCompleteNode.Initialize gc args = .ok (gc1, args1) ∧
        AnimationCompleteNode.Initialize gc1 args1 = .ok (gc1, args1)) ∧
    (∀ (gc : GraphComponent) (args : NodeArguments) (e : EntityRef),
      args.sig = AnimationCompleteNode.OnRegister {} →
      args.inputs 0 = some (.entityRef e) →
      ∃ gc1 args1 args2, AnimationCompleteNode.Execute gc args = .ok (gc1, args1) ∧
        AnimationCompleteNode.Execute gc1 args1 = .ok (gc1, args2) ∧
        args2.listeners = args1.listeners) := by
  refine ⟨?_, ?_, ?_⟩
  · intro α _ _ node args args1 h
    cases node
    case EqualsNode => exact comparison_initialize_twice _ args args1 h
    case NotEqualsNode => exact comparison_initialize_twice _ args args1 h
    case GreaterThanNode => exact comparison_initialize_twice _ args args1 h
    case GreaterThanOrEqualsNode => exact comparison_initialize_twice _ args args1 h
    case LessThanNode => exact comparison_initialize_twice _ args args1 h
    case LessThanOrEqualsNode => exact comparison_initialize_twice _ args args1 h
    case AddNode => exact arithmetic_initialize_twice _ args args1 h
    case SubtractNode => exact arithmetic_initialize_twice _ args args1 h
    case MultiplyNode => exact arithmetic_initialize_twice _ args args1 h
    case DivideNode => exact arithmetic_initialize_twice _ args args1 h
  · intro gc args e hsig he
    exact AnimationCompleteNode.Initialize_again gc args e hsig he
  · intro gc args e hsig he
    exact AnimationCompleteNode.Execute_again gc args e hsig he

/-- Witness for C8: an unbound `AnimationCompleteNode` with the valid entity 3 on
input 0 and no broadcaster created yet. -/
theorem initialize_twice_same_state_witness :
    ∃ gc1 args1,
      AnimationCompleteNode.Initialize {}
          (oneInputArgs (AnimationCompleteNode.OnRegister {}) (.entityRef (.entity 3)) {})
        = .ok (gc1, args1) ∧
      AnimationCompleteNode.Initialize gc1 args1 = .ok (gc1, args1) ∧
      gc1 = { broadcasters := [{ key := .entity 3 }] } ∧
      (args1.listeners 0).binding = some (.entity 3) := by
  obtain ⟨gc1, args1, h1, h2⟩ := initialize_twice_same_state.2.1 {}
    (oneInputArgs (AnimationCompleteNode.OnRegister {}) (.entityRef (.entity 3)) {})
    (.entity 3) rfl rfl
  refine ⟨gc1, args1, h1, h2, ?_, ?_⟩
  · have h3 : AnimationCompleteNode.Initialize {}
        (oneInputArgs (AnimationCompleteNode.OnRegister {}) (.entityRef (.entity 3)) {})
        = .ok ({ broadcasters := [{ key := .entity 3 }] },
            { oneInputArgs (AnimationCompleteNode.OnRegister {}) (.entityRef (.entity 3)) {} with
              listeners := Function.update (fun _ => {}) 0 { binding := some (.entity 3) } }) :=
      rfl
    rw [h3] at h1
    injection h1 with h1
    injection h1 with g1 g2
    exact g1.symm
  · have h3 : AnimationCompleteNode.Initialize {}
        (oneInputArgs (AnimationCompleteNode.OnRegister {}) (.entityRef (.entity 3)) {})
        = .ok ({ broadcasters := [{ key := .entity 3 }] },
            { oneInputArgs (AnimationCompleteNode.OnRegister {}) (.entityRef (.entity 3)) {} with
              listeners := Function.update (fun _ => {}) 0 { binding := some (.entity 3) } }) :=
      rfl
    rw [h3] at h1
    injection h1 with h1
    injection h1 with g1 g2
    rw [← g2]
    rfl

/-! ## Registration -/

/-- The registry does refuse a second registration: the integer math module
registered twice fails with `DuplicateModule`, and a kind name registered twice
in one module fails with `DuplicateNodeKind`. -/
theorem second_registration_fails :
    (InitializeIntegerMathModule {} >>= InitializeIntegerMathModule)
      = .error .DuplicateModule ∧
    (Module.RegisterNode { name := "animation" } .PlayAnimationNode
        (PlayAnimationNode.OnRegister {}) "play_animation"
      >>= fun mod => mod.RegisterNode .PlayAnimationNode (PlayAnimationNode.OnRegister {})
        "play_animation")
      = .error .DuplicateNodeKind :=
  ⟨rfl, rfl⟩

/-- C4: starting from an empty registry, running `InitializeIntegerMathModule`,
`InitializeFloatMathModule` and `InitializeAnimationModule` once each, in any
order, fails neither with `DuplicateModule` nor with `DuplicateNodeKind` (it
returns a registry), and afterwards `LookupNodeKind` finds each of the twelve
math kind names in both `integer_math` and `float_math`, with the class and
the signature registered under it, and finds `animation_complete` and
`play_animation` in `animation`. -/
theorem registration_in_any_order_succeeds (first second third : EntryPoint)
    (h12 : first ≠ second) (h13 : first ≠ third) (h23 : second ≠ third) :
    ∃ registry : ModuleRegistry,
      (first.run {} >>= second.run >>= third.run) = .ok registry ∧
      (∀ T ∈ [("integer_math", TypeTag.int), ("float_math", TypeTag.float)],
        (∀ kind ∈ [("equals", OperatorNode.EqualsNode),
            ("not_equals", OperatorNode.NotEqualsNode),
            ("greater_than", OperatorNode.GreaterThanNode),
            ("greater_than_or_equals", OperatorNode.GreaterThanOrEqualsNode),
            ("less_than", OperatorNode.LessThanNode),
            ("less_than_or_equals", OperatorNode.LessThanOrEqualsNode),
            ("add", OperatorNode.AddNode),
            ("subtract", OperatorNode.SubtractNode),
            ("multiply", OperatorNode.MultiplyNode),
            ("divide", OperatorNode.DivideNode)],
          registry.LookupNodeKind T.1 kind.1
            = .ok (.op kind.2 T.2, OperatorNode.OnRegister T.2 kind.2 {})) ∧
        registry.LookupNodeKind T.1 "max" = .ok (.MaxNode T.2, MaxNode.OnRegister T.2 {}) ∧
        registry.LookupNodeKind T.1 "min" = .ok (.MinNode T.2, MinNode.OnRegister T.2 {})) ∧
      registry.LookupNodeKind "animation" "animation_complete"
        = .ok (.AnimationCompleteNode, AnimationCompleteNode.OnRegister {}) ∧
      registry.LookupNodeKind "animation" "play_animation"
        = .ok (.PlayAnimationNode, PlayAnimationNode.OnRegister {}) := by
  simp only [List.mem_cons, List.mem_singleton, List.mem_nil_iff, or_false, forall_eq_or_imp,
    forall_eq]
  cases first <;> cases second <;> cases third <;>
    first
    | exact absurd rfl h12
    | exact absurd rfl h13
    | exact absurd rfl h23
    | exact ⟨_, rfl, ⟨⟨⟨rfl, rfl, rfl, rfl, rfl, rfl, rfl, rfl, rfl, rfl⟩, rfl, rfl⟩,
        ⟨⟨rfl, rfl, rfl, rfl, rfl, rfl, rfl, rfl, rfl, rfl⟩, rfl, rfl⟩⟩, rfl, rfl⟩

/-- Witness for C4: the animation module first, then the float and the integer
math modules. -/
theorem registration_in_any_order_succeeds_witness :
    ∃ registry : ModuleRegistry,
      (InitializeAnimationModule {} >>= InitializeFloatMathModule
        >>= InitializeIntegerMathModule) = .ok registry ∧
      registry.LookupNodeKind "integer_math" "divide"
        = .ok (.op .DivideNode .int, OperatorNode.OnRegister .int .DivideNode {}) ∧
      registry.LookupNodeKind "animation" "play_animation"
        = .ok (.PlayAnimationNode, PlayAnimationNode.OnRegister {}) := by
  obtain ⟨registry, hrun, hmath, _, hplay⟩ :=
    registration_in_any_order_succeeds .InitializeAnimationModule .InitializeFloatMathModule
      .InitializeIntegerMathModule (by decide) (by decide) (by decide)
  exact ⟨registry, hrun,
    (hmath ("integer_math", .int) (by simp)).1 ("divide", .DivideNode) (by simp), hplay⟩

end fpl.module_library
